import Mathlib

/-!
Shallow embedding of the Calibre-Web-Helper reconciliation core.

Definitions are translated from the Rust sources:
  - `src/calibre.rs`  (catalog upsert engine, sort normalizers)
  - `src/appdb.rs`    (collection manager, Kobo sync repair)
  - `src/cleanup.rs`  (orphan/consistency sweep)
  - `src/models.rs`   (UpsertResult)

SQLite rows are modelled as Lean structures, tables as lists of rows in
insertion order (`SELECT ... LIMIT 1` / `query_row` picks the first match),
timestamps as abstract values supplied by the caller, and rowid assignment
as max-of-existing-ids plus one.  Fallible operations return `Option`;
returning `none` models an error that rolls back the transaction.
-/

/-! ## Identity and sort normalizer (src/calibre.rs) -/

/-- Character-list view of `String.trim` (Rust `str::trim`): drop leading
and trailing whitespace.  Strings are manipulated through their character
lists throughout so that every operation evaluates by kernel reduction. -/
def strTrim (s : String) : String :=
  ⟨((s.data.dropWhile Char.isWhitespace).reverse.dropWhile Char.isWhitespace).reverse⟩

/-- Character count of a string (Rust byte length agrees on the ASCII
strings this tool compares). -/
def strLength (s : String) : Nat :=
  s.data.length

/-- Rust `str::ends_with`. -/
def strEndsWith (s pat : String) : Bool :=
  pat.data.isSuffixOf s.data

/-- Rust `str::starts_with`. -/
def strStartsWith (s pat : String) : Bool :=
  pat.data.isPrefixOf s.data

/-- Rust `str::contains(char)`. -/
def strContainsChar (s : String) (c : Char) : Bool :=
  s.data.contains c

/-- Drop the first `n` characters of a string (`&s[n..]` on ASCII prefixes). -/
def strDrop (s : String) (n : Nat) : String :=
  ⟨s.data.drop n⟩

/-- ASCII-only lower-casing of a character, as used by Rust's
`eq_ignore_ascii_case`. -/
def asciiLowerChar (c : Char) : Char :=
  if 'A' ≤ c ∧ c ≤ 'Z' then Char.ofNat (c.toNat + 32) else c

/-- Case-insensitive ASCII string comparison (`str::eq_ignore_ascii_case`). -/
def eqIgnoreAsciiCase (s t : String) : Bool :=
  s.data.map asciiLowerChar == t.data.map asciiLowerChar

/-- Rust `str::split_whitespace`: split on whitespace, dropping empty pieces. -/
def splitWs (s : String) : List String :=
  ((s.data.splitOnP Char.isWhitespace).filter (fun t => t ≠ [])).map
    (fun t => ⟨t⟩)

/-- The suffix set recognised by `get_author_sort` in src/calibre.rs. -/
def sortSuffixes : List String := ["Jr.", "Sr.", "II", "III", "IV", "Jr", "Sr"]

/-- `get_author_sort` from src/calibre.rs (lines 728-761).

The code splits the trimmed author on whitespace; when there are at least
two tokens it takes the final token as the last name, additionally
prepending the second-to-last token when that token matches the suffix set
case-insensitively (only checked when there are more than two tokens), and
joins the remaining leading tokens as the first-name portion. -/
def getAuthorSort (author : String) : String :=
  let a := strTrim author
  let parts := splitWs a
  if parts.length > 1 then
    let lastTok := parts.getD (parts.length - 1) ""
    let secondLast := parts.getD (parts.length - 2) ""
    let suffixHit : Bool :=
      if parts.length > 2 then
        sortSuffixes.any (fun suf => eqIgnoreAsciiCase secondLast suf)
      else false
    let lastNameParts := if suffixHit then [secondLast, lastTok] else [lastTok]
    let firstNameEnd := if suffixHit then parts.length - 2 else parts.length - 1
    let lastName := String.intercalate " " lastNameParts
    let firstName := String.intercalate " " (parts.take firstNameEnd)
    if firstName = "" then lastName else lastName ++ ", " ++ firstName
  else a

/-- `get_title_sort` from src/calibre.rs (lines 763-778): move a leading
article ("The ", "A ", "An ") to the end of the title. -/
def getTitleSort (title : String) : String :=
  let t := strTrim title
  let articles := ["The ", "A ", "An "]
  match articles.find? (fun art => strLength art < strLength t && strStartsWith t art) with
  | some art => (strDrop t (strLength art)) ++ ", " ++ strTrim art
  | none => t

/-- The author-sort computation as stated by the amended claim: split the
trimmed name on whitespace; with at most one token return the trimmed name;
otherwise the surname is the final token, prefixed by the second-to-last
token when there are more than two tokens and it matches the suffix set
ASCII-case-insensitively, and the given names are the tokens before the
surname (returning the bare surname when no given-name text remains). -/
def authorSortKeyAmended (displayName : String) : String :=
  let trimmed := strTrim displayName
  let toks := splitWs trimmed
  if toks.length ≤ 1 then trimmed
  else
    let surnameBase := toks.getD (toks.length - 1) ""
    let prevTok := toks.getD (toks.length - 2) ""
    let suffixAttached : Bool :=
      if toks.length > 2 then
        sortSuffixes.any (fun suf => eqIgnoreAsciiCase prevTok suf)
      else false
    let surname :=
      if suffixAttached then String.intercalate " " [prevTok, surnameBase]
      else String.intercalate " " [surnameBase]
    let givenCount := if suffixAttached then toks.length - 2 else toks.length - 1
    let given := String.intercalate " " (toks.take givenCount)
    if given = "" then surname else surname ++ ", " ++ given

/-! ## Catalog store model (metadata.db) -/

/-- A row of the `books` table.  Timestamps and publication dates are
modelled as abstract integer instants (the Rust code stores them as
formatted strings and parses them back; the round trip is not modelled). -/
structure BookRow where
  id : Int
  title : String
  sort : String
  author_sort : String
  timestamp : Int
  pubdate : Option Int
  last_modified : Int
  path : String
  series_index : ℚ
  uuid : String
deriving Repr, DecidableEq

/-- A row of an entity table carrying `(id, name)` (publishers, tags). -/
structure NamedEntityRow where
  id : Int
  name : String
deriving Repr, DecidableEq

/-- A row of an entity table carrying `(id, name, sort)` (authors, series). -/
structure SortedEntityRow where
  id : Int
  name : String
  sort : String
deriving Repr, DecidableEq

/-- A row of the `languages` table. -/
structure LanguageRow where
  id : Int
  lang_code : String
deriving Repr, DecidableEq

/-- A link-table row `(book, ref)` for books_*_link tables. -/
structure LinkRow where
  book : Int
  ref : Int
deriving Repr, DecidableEq

/-- A row of the `data` (file format) table. -/
structure DataRow where
  book : Int
  format : String
  uncompressed_size : Nat
  name : String
deriving Repr, DecidableEq

/-- A row of the `comments` table. -/
structure CommentRow where
  book : Int
  text : String
deriving Repr, DecidableEq

/-- A row of the `identifiers` table. -/
structure IdentifierRow where
  book : Int
  typ : String
  val : String
deriving Repr, DecidableEq

/-- A single-column dependent row (`metadata_dirtied`, `annotations_dirtied`). -/
structure DirtiedRow where
  book : Int
deriving Repr, DecidableEq

/-- The catalog store (metadata.db): tables as lists of rows in row order. -/
structure CalDB where
  books : List BookRow
  authors : List SortedEntityRow
  publishers : List NamedEntityRow
  series : List SortedEntityRow
  tags : List NamedEntityRow
  languages : List LanguageRow
  books_authors_link : List LinkRow
  books_publishers_link : List LinkRow
  books_series_link : List LinkRow
  books_languages_link : List LinkRow
  books_tags_link : List LinkRow
  books_ratings_link : List LinkRow
  data : List DataRow
  comments : List CommentRow
  identifiers : List IdentifierRow
  metadata_dirtied : List DirtiedRow
  annotations_dirtied : List DirtiedRow
deriving Repr, DecidableEq

/-- SQLite rowid assignment for an insert: one more than the largest
existing id (`last_insert_rowid` after inserting into an empty or
populated table). -/
def nextRowId (ids : List Int) : Int :=
  ids.foldl max 0 + 1

/-- The incoming `BookMetadata` record (src/models.rs / src/calibre.rs).
`path` is the source file path rendered as a string. -/
structure BookMeta where
  title : String
  author : String
  path : String
  description : Option String
  language : Option String
  isbn : Option String
  rights : Option String
  subtitle : Option String
  series : Option String
  series_index : Option ℚ
  publisher : Option String
  pubdate : Option Int
  file_size : Nat
deriving Repr, DecidableEq

/-- `UpsertResult` from src/models.rs. -/
inductive UpsertResult where
  | Created (book_id : Int) (book_path : String)
  | Updated (book_id : Int) (book_path : String)
  | NoChanges (book_id : Int) (book_path : String)
deriving Repr, DecidableEq

/-- `UpsertResult::book_id`. -/
def UpsertResult.bookId : UpsertResult → Int
  | .Created i _ => i
  | .Updated i _ => i
  | .NoChanges i _ => i

/-- `UpsertResult::book_path`. -/
def UpsertResult.bookPath : UpsertResult → String
  | .Created _ p => p
  | .Updated _ p => p
  | .NoChanges _ p => p

/-- `UpsertResult::skip_file_operations` (src/models.rs lines 81-85):
file operations are skipped exactly for the NO-OP result. -/
def UpsertResult.skipFileOps : UpsertResult → Bool
  | .NoChanges _ _ => true
  | _ => false

/-- The natural-key lookup at the top of `add_book_to_db`:
`SELECT id, path FROM books WHERE title = ?1 AND author_sort = ?2`. -/
def findBookByNaturalKey (db : CalDB) (title authorSort : String) :
    Option (Int × String) :=
  (db.books.find? (fun b => b.title = title ∧ b.author_sort = authorSort)).map
    (fun b => (b.id, b.path))

/-- `ExistingBookData` (src/calibre.rs lines 26-33). -/
structure ExistingBookData where
  id : Int
  path : String
  pubdate : Option Int
  series_index : ℚ
  publisher : Option String
  series : Option String
deriving Repr, DecidableEq

/-- `get_existing_book_data` (src/calibre.rs lines 36-83): basic columns from
the books row, plus the (first) linked publisher and series names. -/
def getExistingBookData (db : CalDB) (bookId : Int) : Option ExistingBookData :=
  (db.books.find? (fun b => b.id = bookId)).map (fun b =>
    { id := bookId
      path := b.path
      pubdate := b.pubdate
      series_index := b.series_index
      publisher := (db.books_publishers_link.find? (fun l => l.book = bookId)).bind
        (fun l => (db.publishers.find? (fun p => p.id = l.ref)).map (fun p => p.name))
      series := (db.books_series_link.find? (fun l => l.book = bookId)).bind
        (fun l => (db.series.find? (fun s => s.id = l.ref)).map (fun s => s.name)) })

/-- `UpdateChanges` (src/calibre.rs lines 135-141). -/
structure UpdateChanges where
  pubdate_changed : Bool
  series_index_changed : Bool
  publisher_changed : Bool
  series_changed : Bool
deriving Repr, DecidableEq

/-- `UpdateChanges::has_any_changes`. -/
def UpdateChanges.hasAny (c : UpdateChanges) : Bool :=
  c.pubdate_changed || c.series_index_changed || c.publisher_changed || c.series_changed

/-- `f64::EPSILON` as an exact rational (2^-52); the float comparison
`(existing - new).abs() > f64::EPSILON` is modelled exactly over ℚ. -/
def epsF64 : ℚ := 1 / 4503599627370496

/-- `determine_changes` (src/calibre.rs lines 108-133). -/
def determineChanges (ex : ExistingBookData) (m : BookMeta) : UpdateChanges :=
  { pubdate_changed := ex.pubdate ≠ m.pubdate
    series_index_changed := |ex.series_index - m.series_index.getD 1| > epsF64
    publisher_changed := ex.publisher ≠ m.publisher
    series_changed := ex.series ≠ m.series }

/-- `find_or_create_by_name` on the publishers table (src/utils.rs 66-81). -/
def findOrCreatePublisher (db : CalDB) (name : String) : CalDB × Int :=
  match db.publishers.find? (fun p => p.name = name) with
  | some p => (db, p.id)
  | none =>
      let nid := nextRowId (db.publishers.map (fun p => p.id))
      ({ db with publishers := db.publishers ++ [⟨nid, name⟩] }, nid)

/-- `find_or_create_by_name_and_sort` on the authors table (src/utils.rs 85-101). -/
def findOrCreateAuthor (db : CalDB) (name sort : String) : CalDB × Int :=
  match db.authors.find? (fun p => p.name = name) with
  | some p => (db, p.id)
  | none =>
      let nid := nextRowId (db.authors.map (fun p => p.id))
      ({ db with authors := db.authors ++ [⟨nid, name, sort⟩] }, nid)

/-- `find_or_create_by_name_and_sort` on the series table. -/
def findOrCreateSeries (db : CalDB) (name sort : String) : CalDB × Int :=
  match db.series.find? (fun p => p.name = name) with
  | some p => (db, p.id)
  | none =>
      let nid := nextRowId (db.series.map (fun p => p.id))
      ({ db with series := db.series ++ [⟨nid, name, sort⟩] }, nid)

/-- `find_or_create_language` (src/utils.rs 104-115). -/
def findOrCreateLanguage (db : CalDB) (code : String) : CalDB × Int :=
  match db.languages.find? (fun p => p.lang_code = code) with
  | some p => (db, p.id)
  | none =>
      let nid := nextRowId (db.languages.map (fun p => p.id))
      ({ db with languages := db.languages ++ [⟨nid, code⟩] }, nid)

/-- The books-row UPDATE statements on the update path of `add_book_to_db`
(src/calibre.rs lines 210-244).  Note the branch where only the pubdate
changed and the new pubdate is absent executes no statement at all. -/
def applyBooksUpdate (db : CalDB) (bookId : Int) (ch : UpdateChanges)
    (m : BookMeta) (now : Int) : CalDB :=
  let upd (f : BookRow → BookRow) : CalDB :=
    { db with books := db.books.map (fun b => if b.id = bookId then f b else b) }
  if ch.pubdate_changed && ch.series_index_changed then
    match m.pubdate with
    | some pd => upd (fun b =>
        { b with last_modified := now, pubdate := some pd,
                 series_index := m.series_index.getD 1 })
    | none => upd (fun b =>
        { b with last_modified := now, series_index := m.series_index.getD 1 })
  else if ch.pubdate_changed then
    match m.pubdate with
    | some pd => upd (fun b => { b with last_modified := now, pubdate := some pd })
    | none => db
  else if ch.series_index_changed then
    upd (fun b => { b with last_modified := now, series_index := m.series_index.getD 1 })
  else
    upd (fun b => { b with last_modified := now })

/-- Publisher link rewrite on the update path (src/calibre.rs lines 247-260):
delete the book's publisher links, then re-link when a publisher is given. -/
def applyPublisherUpdate (db : CalDB) (bookId : Int) (m : BookMeta) : CalDB :=
  let db1 := { db with books_publishers_link :=
    db.books_publishers_link.filter (fun l => ¬ l.book = bookId) }
  match m.publisher with
  | some name =>
      let (db2, pid) := findOrCreatePublisher db1 name
      { db2 with books_publishers_link := db2.books_publishers_link ++ [⟨bookId, pid⟩] }
  | none => db1

/-- Series link rewrite on the update path (src/calibre.rs lines 263-276). -/
def applySeriesUpdate (db : CalDB) (bookId : Int) (m : BookMeta) : CalDB :=
  let db1 := { db with books_series_link :=
    db.books_series_link.filter (fun l => ¬ l.book = bookId) }
  match m.series with
  | some name =>
      let (db2, sid) := findOrCreateSeries db1 name name
      { db2 with books_series_link := db2.books_series_link ++ [⟨bookId, sid⟩] }
  | none => db1

/-- File-format detection on the create path (src/calibre.rs lines 330-337):
`.kepub.epub`/`.kepub` map to KEPUB, `.epub` to EPUB, anything else is a
hard error. -/
def formatOfPath (p : String) : Option String :=
  if strEndsWith p ".kepub.epub" || strEndsWith p ".kepub" then some "KEPUB"
  else if strEndsWith p ".epub" then some "EPUB"
  else none

/-- The create path of `add_book_to_db` (src/calibre.rs lines 282-410),
starting after the natural-key lookup found no match. -/
def createBook (db : CalDB) (m : BookMeta) (now : Int) (uuid : String) :
    Option (CalDB × UpsertResult) :=
  let authorSortName := getAuthorSort m.author
  let db1 := (findOrCreateAuthor db m.author authorSortName).1
  let authorId := (findOrCreateAuthor db m.author authorSortName).2
  let titleSort := getTitleSort m.title
  let bookId := nextRowId (db1.books.map (fun b => b.id))
  let newBook : BookRow :=
    { id := bookId, title := m.title, sort := titleSort,
      author_sort := authorSortName, timestamp := now,
      pubdate := some (m.pubdate.getD now), last_modified := now,
      path := "", series_index := m.series_index.getD 1, uuid := uuid }
  let db2 : CalDB := { db1 with books := db1.books ++ [newBook] }
  let bookPath := m.author ++ "/" ++ m.title ++ " (" ++ toString bookId ++ ")"
  let db3 : CalDB := { db2 with books := db2.books.map (fun b =>
    if b.id = bookId then { b with path := bookPath } else b) }
  let db4 : CalDB := { db3 with books_authors_link :=
    db3.books_authors_link ++ [⟨bookId, authorId⟩] }
  match formatOfPath m.path with
  | none => none
  | some fmt =>
    let filename := m.title ++ " - " ++ m.author
    let db5 : CalDB := { db4 with data := db4.data ++ [⟨bookId, fmt, m.file_size, filename⟩] }
    let commentParts :=
      (match m.subtitle with
        | some s => ["<h3>" ++ s ++ "</h3>"] | none => []) ++
      (match m.description with
        | some d => [d] | none => []) ++
      (match m.rights with
        | some r => ["<p>Rights: " ++ r ++ "</p>"] | none => [])
    let db6 :=
      if commentParts.isEmpty then db5
      else { db5 with comments :=
        db5.comments ++ [⟨bookId, String.intercalate "\n" commentParts⟩] }
    let db7 :=
      match m.language with
      | some lang =>
          { (findOrCreateLanguage db6 lang).1 with books_languages_link :=
            ((findOrCreateLanguage db6 lang).1).books_languages_link ++
              [⟨bookId, (findOrCreateLanguage db6 lang).2⟩] }
      | none => db6
    let db8 :=
      match m.isbn with
      | some isbn => { db7 with identifiers :=
          db7.identifiers ++ [⟨bookId, "ISBN", isbn⟩] }
      | none => db7
    let db9 :=
      match m.publisher with
      | some pname =>
          { (findOrCreatePublisher db8 pname).1 with books_publishers_link :=
            ((findOrCreatePublisher db8 pname).1).books_publishers_link ++
              [⟨bookId, (findOrCreatePublisher db8 pname).2⟩] }
      | none => db8
    let db10 :=
      match m.series with
      | some sname =>
          let dbs2 : CalDB :=
            { (findOrCreateSeries db9 sname sname).1 with books_series_link :=
              ((findOrCreateSeries db9 sname sname).1).books_series_link ++
                [⟨bookId, (findOrCreateSeries db9 sname sname).2⟩] }
          match m.series_index with
          | some idx => { dbs2 with books := dbs2.books.map (fun b =>
              if b.id = bookId then { b with series_index := idx } else b) }
          | none => dbs2
      | none => db9
    some (db10, .Created bookId bookPath)

/-- `add_book_to_db` (src/calibre.rs lines 157-411).

`newFileHash` is the digest of the incoming file; `existingFileHash` models
`get_existing_book_file_path` + `calculate_file_hash` for the located
existing book file, keyed by the stored book path (`none` when no file was
found or hashing failed — both fall through identically in the code).
`now` and `uuid` model the clock and UUID mint.  `none` models an aborted
(rolled back) transaction. -/
def addBookToDb (db : CalDB) (m : BookMeta) (newFileHash : String)
    (existingFileHash : String → Option String) (now : Int) (uuid : String) :
    Option (CalDB × UpsertResult) :=
  let authorSortName := getAuthorSort m.author
  match findBookByNaturalKey db m.title authorSortName with
  | some (bookId, bookPath) =>
      let hashEqual : Bool :=
        match existingFileHash bookPath with
        | some h => h == newFileHash
        | none => false
      if hashEqual then some (db, .NoChanges bookId bookPath)
      else
        match getExistingBookData db bookId with
        | none => none
        | some ex =>
          let changes := determineChanges ex m
          if ¬ changes.hasAny then some (db, .NoChanges bookId bookPath)
          else
            let db1 := applyBooksUpdate db bookId changes m now
            let db2 : CalDB := if changes.publisher_changed
              then applyPublisherUpdate db1 bookId m else db1
            let db3 : CalDB := if changes.series_changed
              then applySeriesUpdate db2 bookId m else db2
            some (db3, .Updated bookId bookPath)
  | none => createBook db m now uuid

/-! ## Companion store model (app.db) -/

/-- A row of the `user` table. -/
structure UserRow where
  id : Int
  name : String
deriving Repr, DecidableEq

/-- A row of the `shelf` table.  Timestamps are abstract strings; `none`
models SQL NULL. -/
structure ShelfRow where
  id : Int
  uuid : String
  name : String
  is_public : Bool
  user_id : Int
  kobo_sync : Bool
  created : Option String
  last_modified : Option String
deriving Repr, DecidableEq

/-- A row of the `book_shelf_link` table (`ord` is the `"order"` column). -/
structure BookShelfLinkRow where
  book_id : Int
  shelf : Int
  ord : Int
  date_added : Option String
deriving Repr, DecidableEq

/-- A row of the `kobo_synced_books` table. -/
structure SyncedBookRow where
  book_id : Int
  user_id : Int
deriving Repr, DecidableEq

/-- A row of the `kobo_reading_state` table. -/
structure ReadingStateRow where
  id : Int
  user_id : Int
  book_id : Int
  last_modified : Option String
  priority_timestamp : Option String
  current_bookmark : Option Int
deriving Repr, DecidableEq

/-- A row of the `kobo_bookmark` table (the constant location/progress
columns are omitted; they are never read back). -/
structure BookmarkRow where
  id : Int
  kobo_reading_state_id : Int
  last_modified : String
deriving Repr, DecidableEq

/-- A row of the `kobo_statistics` table (counter columns are always NULL
when written by this tool and never read back; omitted). -/
structure StatisticsRow where
  kobo_reading_state_id : Int
  last_modified : String
deriving Repr, DecidableEq

/-- A row of the `downloads` table (book reference only). -/
structure DownloadRow where
  book_id : Int
deriving Repr, DecidableEq

/-- A row of the `archived_book` table (book reference only). -/
structure ArchivedRow where
  book_id : Int
deriving Repr, DecidableEq

/-- The companion store (app.db). -/
structure AppDB where
  users : List UserRow
  shelves : List ShelfRow
  links : List BookShelfLinkRow
  synced : List SyncedBookRow
  readingStates : List ReadingStateRow
  bookmarks : List BookmarkRow
  statistics : List StatisticsRow
  downloads : List DownloadRow
  archived : List ArchivedRow
deriving Repr, DecidableEq

/-- `resolve_user_id` (src/appdb.rs lines 44-57): a named user must exist,
no name defaults to the admin id 1. -/
def resolveUserId (db : AppDB) (username : Option String) : Option Int :=
  match username with
  | some u => (db.users.find? (fun r => r.name = u)).map (fun r => r.id)
  | none => some 1

/-- `find_or_create_shelf` (src/appdb.rs lines 60-83): look up by
`(name, user_id)`; otherwise insert a private, non-sync shelf with a fresh
UUID and both timestamps set to now. -/
def findOrCreateShelf (db : AppDB) (shelfName : String) (userId : Int)
    (uuid now : String) : AppDB × Int :=
  match db.shelves.find? (fun s => s.name = shelfName ∧ s.user_id = userId) with
  | some s => (db, s.id)
  | none =>
      let nid := nextRowId (db.shelves.map (fun s => s.id))
      ({ db with shelves := db.shelves ++
          [{ id := nid, uuid := uuid, name := shelfName, is_public := false,
             user_id := userId, kobo_sync := false,
             created := some now, last_modified := some now }] }, nid)

/-- `handle_kobo_sync` (src/appdb.rs lines 86-141): when the shelf has Kobo
sync enabled and no reading state exists for (book, user), create the
reading state, its statistics row, a placeholder bookmark, and point the
reading state's current bookmark at it. -/
def handleKoboSync (db : AppDB) (shelfId bookId userId : Int) (now : String) :
    AppDB :=
  let isKoboSync :=
    match db.shelves.find? (fun s => s.id = shelfId) with
    | some s => s.kobo_sync
    | none => false
  if isKoboSync then
    if db.readingStates.any (fun r => r.book_id = bookId ∧ r.user_id = userId) then
      db
    else
      let rid := nextRowId (db.readingStates.map (fun r => r.id))
      let db1 : AppDB := { db with readingStates := db.readingStates ++
        [{ id := rid, user_id := userId, book_id := bookId,
           last_modified := some now, priority_timestamp := some now,
           current_bookmark := none }] }
      -- the code re-queries the reading-state id by (book, user); the row
      -- just inserted is the first (and only) match
      let rid' := ((db1.readingStates.find?
        (fun r => r.book_id = bookId ∧ r.user_id = userId)).map
          (fun r => r.id)).getD rid
      let db2 : AppDB := { db1 with statistics := db1.statistics ++ [⟨rid', now⟩] }
      let bmId := nextRowId (db2.bookmarks.map (fun b => b.id))
      let db3 : AppDB := { db2 with bookmarks := db2.bookmarks ++ [⟨bmId, rid', now⟩] }
      { db3 with readingStates := db3.readingStates.map (fun r =>
          if r.id = rid' then { r with current_bookmark := some bmId } else r) }
  else db

/-- `add_book_to_shelf_core` (src/appdb.rs lines 144-204).  The
`allow_duplicates` flag only changes logging and is omitted.  `uuid` models
the UUID minted for a freshly created shelf and `now` the clock (the code
samples the clock separately for shelf creation and for the link; both
samples are represented by the same abstract instant).  `none` models the
aborted transaction on an unknown username. -/
def addBookToShelfCore (db : AppDB) (bookId : Int) (shelfName : String)
    (username : Option String) (uuid now : String) : Option (AppDB × Bool) :=
  match resolveUserId db username with
  | none => none
  | some userId =>
    let (db1, shelfId) := findOrCreateShelf db shelfName userId uuid now
    let linkExists := db1.links.any (fun l => l.book_id = bookId ∧ l.shelf = shelfId)
    if linkExists then some (db1, false)
    else
      let nextOrd :=
        (((db1.links.filter (fun l => l.shelf = shelfId)).map
          (fun l => l.ord)).max?).getD 0 + 1
      let db2 : AppDB := { db1 with links := db1.links ++
        [{ book_id := bookId, shelf := shelfId, ord := nextOrd,
           date_added := some now }] }
      let db3 : AppDB := { db2 with shelves := db2.shelves.map (fun s =>
        if s.id = shelfId then { s with last_modified := some now } else s) }
      let db4 := handleKoboSync db3 shelfId bookId userId now
      let db5 : AppDB :=
        { db4 with synced := db4.synced.filter (fun r => ¬ r.user_id = userId) }
      some (db5, true)

/-- The companion-store part of `delete_book` (src/calibre.rs lines
612-627): remove the book from all shelves, then delete each
formerly-containing shelf that became empty. -/
def removeBookFromShelves (db : AppDB) (bookId : Int) : AppDB :=
  let affected := (db.links.filter (fun l => l.book_id = bookId)).map (fun l => l.shelf)
  let links' := db.links.filter (fun l => ¬ l.book_id = bookId)
  let shelves' := db.shelves.filter (fun s =>
    ¬ (affected.contains s.id ∧ (links'.filter (fun l => l.shelf = s.id)).length = 0))
  { db with links := links', shelves := shelves' }

/-! ## Kobo reading-state repair (src/appdb.rs, fix_kobo_reading_state_schema) -/

/-- The per-row group maximum of `kobo_reading_state` ids grouped by
`(user_id, book_id)`; the set of these values is the result of
`SELECT MAX(id) FROM kobo_reading_state GROUP BY user_id, book_id`. -/
def groupMaxIds (states : List ReadingStateRow) : List Int :=
  states.map (fun r =>
    ((states.filter (fun s => s.user_id = r.user_id ∧ s.book_id = r.book_id)).map
      (fun s => s.id)).foldl max r.id)

/-- One iteration of the missing-bookmark loop in
`fix_kobo_reading_state_schema` (src/appdb.rs lines 688-705): insert a
default bookmark for the reading state and point its current bookmark at
the fresh row. -/
def createMissingBookmark (now : String)
    (acc : List BookmarkRow × List ReadingStateRow) (rsId : Int) :
    List BookmarkRow × List ReadingStateRow :=
  let bmId := nextRowId (acc.1.map (fun b => b.id))
  (acc.1 ++ [⟨bmId, rsId, now⟩],
   acc.2.map (fun s => if s.id = rsId then { s with current_bookmark := some bmId } else s))

/-- `fix_kobo_reading_state_schema` (src/appdb.rs lines 620-727), data-fix
part (the ALTER TABLE branch only adds the modelled `current_bookmark`
column when missing).  Steps: delete bookmarks of duplicate reading states,
delete the duplicate reading states (keeping the highest id per
(user, book)), create a bookmark for every reading state that has none and
link it, then backfill NULL current-bookmark pointers from any existing
bookmark. -/
def fixKoboReadingStateSchema (db : AppDB) (now : String) : AppDB :=
  let maxIds := groupMaxIds db.readingStates
  let dupStates := db.readingStates.filter (fun r => ¬ maxIds.contains r.id)
  let bms1 := db.bookmarks.filter (fun b =>
    ¬ dupStates.any (fun d => d.id = b.kobo_reading_state_id))
  let states1 := db.readingStates.filter (fun r => maxIds.contains r.id)
  let missing := (states1.filter (fun r =>
    ¬ bms1.any (fun b => b.kobo_reading_state_id = r.id))).map (fun r => r.id)
  let folded := missing.foldl (createMissingBookmark now) (bms1, states1)
  let states3 := folded.2.map (fun s =>
    if s.current_bookmark = none then
      match folded.1.find? (fun b => b.kobo_reading_state_id = s.id) with
      | some b => { s with current_bookmark := some b.id }
      | none => s
    else s)
  { db with readingStates := states3, bookmarks := folded.1 }

/-! ## Consistency sweep (src/cleanup.rs) -/

/-- The catalog-side orphan pass of `cleanup_databases` (src/cleanup.rs
lines 34-122).  `bookPaths` is the set of relative directories under the
library root that contain at least one non-cover, non-metadata file (the
on-disk walk).  Books whose stored path is not among them are orphaned:
their dependent-table rows are deleted, then the rows themselves, then
entity rows with no remaining links. -/
def cleanupMetadata (db : CalDB) (bookPaths : List String) : CalDB :=
  let orphanIds := (db.books.filter (fun b => ¬ bookPaths.contains b.path)).map
    (fun b => b.id)
  let keep (bid : Int) : Bool := ¬ orphanIds.contains bid
  let db1 : CalDB :=
    { db with
      books_authors_link := db.books_authors_link.filter (fun l => keep l.book)
      books_languages_link := db.books_languages_link.filter (fun l => keep l.book)
      books_publishers_link := db.books_publishers_link.filter (fun l => keep l.book)
      books_ratings_link := db.books_ratings_link.filter (fun l => keep l.book)
      books_series_link := db.books_series_link.filter (fun l => keep l.book)
      books_tags_link := db.books_tags_link.filter (fun l => keep l.book)
      comments := db.comments.filter (fun c => keep c.book)
      data := db.data.filter (fun d => keep d.book)
      identifiers := db.identifiers.filter (fun i => keep i.book)
      metadata_dirtied := db.metadata_dirtied.filter (fun r => keep r.book)
      annotations_dirtied := db.annotations_dirtied.filter (fun r => keep r.book)
      books := db.books.filter (fun b => keep b.id) }
  { db1 with
    authors := db1.authors.filter (fun a =>
      db1.books_authors_link.any (fun l => l.ref = a.id))
    publishers := db1.publishers.filter (fun p =>
      db1.books_publishers_link.any (fun l => l.ref = p.id))
    series := db1.series.filter (fun s =>
      db1.books_series_link.any (fun l => l.ref = s.id))
    tags := db1.tags.filter (fun t =>
      db1.books_tags_link.any (fun l => l.ref = t.id)) }

/-- The inlined id list used by the `format!`-built `NOT IN (...)` clauses
of src/cleanup.rs: the valid ids themselves, or the dummy `-1` when there
are none. -/
def inlinedIdList (validBooks : List Int) : List Int :=
  if validBooks.isEmpty then [-1] else validBooks

/-- The kobo_bookmark / kobo_statistics deletions bind the comma-joined id
string as a single SQL parameter (src/cleanup.rs lines 216-235), so
`book_id NOT IN (?)` compares against one text value: the text coerces to
an integer only when the whole string parses as one (an empty valid set
binds "-1", a single id binds its digits, two or more ids yield a
non-numeric string that compares unequal to every integer). -/
def boundParamNotIn (validBooks : List Int) (bid : Int) : Bool :=
  match validBooks with
  | [] => bid ≠ -1
  | [x] => bid ≠ x
  | _ => true

/-- The companion-side part of `cleanup_databases` (src/cleanup.rs lines
124-275): NULL-timestamp repairs, then deletion of rows referencing book
ids outside the valid set, leaf tables first, then now-empty shelves. -/
def cleanupAppdb (db : AppDB) (validBooks : List Int) (now : String) : AppDB :=
  -- NULL-datetime fixes on shelf, applied as three successive statements
  let shelves1 := db.shelves.map (fun s =>
    if s.created = none ∧ s.last_modified ≠ none then
      { s with created := s.last_modified } else s)
  let shelves2 := shelves1.map (fun s =>
    if s.last_modified = none ∧ s.created ≠ none then
      { s with last_modified := s.created } else s)
  let shelves3 := shelves2.map (fun s =>
    if s.created = none ∧ s.last_modified = none then
      { s with created := some now, last_modified := some now } else s)
  let links1 := db.links.map (fun l =>
    if l.date_added = none then { l with date_added := some now } else l)
  let inl := inlinedIdList validBooks
  let downloads' := db.downloads.filter (fun d => inl.contains d.book_id)
  let archived' := db.archived.filter (fun a => inl.contains a.book_id)
  let bookmarks' := db.bookmarks.filter (fun b =>
    ¬ db.readingStates.any (fun r =>
      r.id = b.kobo_reading_state_id ∧ boundParamNotIn validBooks r.book_id))
  let statistics' := db.statistics.filter (fun st =>
    ¬ db.readingStates.any (fun r =>
      r.id = st.kobo_reading_state_id ∧ boundParamNotIn validBooks r.book_id))
  let readingStates' := db.readingStates.filter (fun r => inl.contains r.book_id)
  let synced' := db.synced.filter (fun sb => inl.contains sb.book_id)
  let links2 := links1.filter (fun l => inl.contains l.book_id)
  let shelves4 := shelves3.filter (fun s => links2.any (fun l => l.shelf = s.id))
  { db with
    shelves := shelves4, links := links2, synced := synced',
    readingStates := readingStates', bookmarks := bookmarks',
    statistics := statistics', downloads := downloads', archived := archived' }

/-- `cleanup_databases` (src/cleanup.rs lines 6-279): the catalog pass
commits first, then the companion pass reads the valid book ids from the
cleaned catalog. -/
def cleanupDatabases (cal : CalDB) (app : Option AppDB) (bookPaths : List String)
    (now : String) : CalDB × Option AppDB :=
  let cal' := cleanupMetadata cal bookPaths
  (cal', app.map (fun a => cleanupAppdb a (cal'.books.map (fun b => b.id)) now))

/-! ## Kobo sync repair (src/appdb.rs, fix_kobo_sync_issues) -/

/-- The fix counters reported by `fix_kobo_sync_issues`. -/
structure FixCounts where
  cleaned_sync_entries : Nat
  fixed_reading_state : Nat
  fixed_timestamps : Nat
  repaired_statistics : Nat
  reset_timestamps : Nat
deriving Repr, DecidableEq

/-- One iteration of the per-book loop of `fix_kobo_sync_issues`
(src/appdb.rs lines 455-511): clear sync acknowledgments for (book, user),
create or timestamp-standardise the reading state, and refresh the shelf's
last-modified.  Reading a NULL `last_modified` as a string is a SQL type
error (`none`). -/
def processKoboBook (nowLocal : String) (acc : Option (AppDB × FixCounts))
    (t : Int × Int × Int) : Option (AppDB × FixCounts) :=
  match acc with
  | none => none
  | some (db, c) =>
    let (bookId, shelfId, userId) := t
    let removed := db.synced.countP (fun r => r.book_id = bookId ∧ r.user_id = userId)
    let db1 : AppDB :=
      { db with synced :=
          db.synced.filter (fun r => ¬ (r.book_id = bookId ∧ r.user_id = userId)) }
    let c1 : FixCounts := { c with cleaned_sync_entries := c.cleaned_sync_entries + removed }
    let afterState : Option (AppDB × FixCounts) :=
      match db1.readingStates.find? (fun r => r.book_id = bookId ∧ r.user_id = userId) with
      | some rs =>
        match rs.last_modified with
        | none => none
        | some ts =>
          if (¬ strContainsChar ts '.') ∨ strLength ts < 26 then
            some ({ db1 with readingStates := db1.readingStates.map (fun r =>
                if r.id = rs.id then
                  { r with last_modified := some nowLocal,
                           priority_timestamp := some nowLocal }
                else r) },
              { c1 with fixed_timestamps := c1.fixed_timestamps + 1 })
          else some (db1, c1)
      | none =>
        some ({ db1 with readingStates := db1.readingStates ++
            [{ id := nextRowId (db1.readingStates.map (fun r => r.id)),
               user_id := userId, book_id := bookId,
               last_modified := some nowLocal, priority_timestamp := some nowLocal,
               current_bookmark := none }] },
          { c1 with fixed_reading_state := c1.fixed_reading_state + 1 })
    match afterState with
    | none => none
    | some (db2, c2) =>
      some ({ db2 with shelves := db2.shelves.map (fun s =>
          if s.id = shelfId then { s with last_modified := some nowLocal } else s) },
        c2)

/-- `fix_kobo_sync_issues` (src/appdb.rs lines 424-617) followed by the
`fix_kobo_reading_state_schema` pass it invokes at the end. -/
def fixKoboSyncIssues (db : AppDB) (nowLocal nowUtc : String) :
    Option (AppDB × FixCounts) :=
  let joined := db.links.flatMap (fun l =>
    (db.shelves.filter (fun s => s.id = l.shelf ∧ s.kobo_sync)).map
      (fun s => (l.book_id, s.id, s.user_id)))
  let toProcess := joined.dedup
  let c0 : FixCounts := ⟨0, 0, 0, 0, 0⟩
  match toProcess.foldl (processKoboBook nowLocal) (some (db, c0)) with
  | none => none
  | some (db1, c1) =>
    -- cross-fill NULL timestamps on reading states
    let n1 := db1.readingStates.countP (fun r =>
      r.last_modified = none ∧ r.priority_timestamp ≠ none)
    let states1 := db1.readingStates.map (fun r =>
      if r.last_modified = none ∧ r.priority_timestamp ≠ none then
        { r with last_modified := r.priority_timestamp } else r)
    let n2 := states1.countP (fun r =>
      r.priority_timestamp = none ∧ r.last_modified ≠ none)
    let states2 := states1.map (fun r =>
      if r.priority_timestamp = none ∧ r.last_modified ≠ none then
        { r with priority_timestamp := r.last_modified } else r)
    let db2 : AppDB := { db1 with readingStates := states2 }
    let c2 : FixCounts := { c1 with fixed_timestamps := c1.fixed_timestamps + n1 + n2 }
    -- repair missing kobo_statistics rows (reads last_modified as a string)
    let missingStats := db2.readingStates.filter (fun r =>
      ¬ db2.statistics.any (fun st => st.kobo_reading_state_id = r.id))
    match missingStats.mapM (fun r =>
        r.last_modified.map (fun ts => (⟨r.id, ts⟩ : StatisticsRow))) with
    | none => none
    | some newStats =>
      let db3 : AppDB := { db2 with statistics := db2.statistics ++ newStats }
      let c3 : FixCounts :=
        { c2 with repaired_statistics := c2.repaired_statistics + newStats.length }
      -- unconditional timestamp reset for every link on a Kobo shelf
      let onKobo (l : BookShelfLinkRow) : Bool :=
        db3.shelves.any (fun s => s.id = l.shelf ∧ s.kobo_sync)
      let updatedBooks := db3.links.countP (fun l => onKobo l)
      let db4 : AppDB := { db3 with links := db3.links.map (fun l =>
        if onKobo l then { l with date_added := some nowUtc } else l) }
      let c4 : FixCounts := { c3 with reset_timestamps := updatedBooks }
      some (fixKoboReadingStateSchema db4 nowLocal, c4)

/-! ## Derived predicates and concrete fixtures -/

/-- The two-way bookmark invariant: every reading-state row with a non-null
current bookmark references an existing bookmark row whose reading-state id
is the row's own id. -/
def twoWayInv (db : AppDB) : Prop :=
  ∀ r ∈ db.readingStates, r.current_bookmark = none ∨
    ∃ b ∈ db.bookmarks, some b.id = r.current_bookmark ∧
      b.kobo_reading_state_id = r.id

instance (db : AppDB) : Decidable (twoWayInv db) := by
  unfold twoWayInv; infer_instance

/-- All book ids referenced by catalog-store dependent tables. -/
def calDepBookIds (db : CalDB) : List Int :=
  db.books_authors_link.map (fun l => l.book) ++
  db.books_languages_link.map (fun l => l.book) ++
  db.books_publishers_link.map (fun l => l.book) ++
  db.books_ratings_link.map (fun l => l.book) ++
  db.books_series_link.map (fun l => l.book) ++
  db.books_tags_link.map (fun l => l.book) ++
  db.comments.map (fun c => c.book) ++
  db.data.map (fun d => d.book) ++
  db.identifiers.map (fun i => i.book) ++
  db.metadata_dirtied.map (fun r => r.book) ++
  db.annotations_dirtied.map (fun r => r.book)

/-- All book ids referenced by companion-store rows that carry a book id. -/
def appDepBookIds (db : AppDB) : List Int :=
  db.links.map (fun l => l.book_id) ++
  db.downloads.map (fun d => d.book_id) ++
  db.archived.map (fun a => a.book_id) ++
  db.synced.map (fun s => s.book_id) ++
  db.readingStates.map (fun r => r.book_id)

/-- An empty catalog store. -/
def emptyCal : CalDB :=
  ⟨[], [], [], [], [], [], [], [], [], [], [], [], [], [], [], [], []⟩

/-- An empty companion store. -/
def emptyApp : AppDB :=
  ⟨[], [], [], [], [], [], [], [], []⟩

/-- Concrete catalog used for the update-path evaluation: one book titled
"T" by "Ann" with a stored pubdate and no publisher/series links. -/
def calFixtureUpd : CalDB :=
  { emptyCal with books :=
    [{ id := 1, title := "T", sort := "T", author_sort := "Ann",
       timestamp := 0, pubdate := some 5, last_modified := 100,
       path := "P", series_index := 1, uuid := "u" }] }

/-- Incoming metadata matching `calFixtureUpd`'s book, with the pubdate
dropped and every other comparable field unchanged. -/
def metaFixtureUpd : BookMeta :=
  { title := "T", author := "Ann", path := "b.epub",
    description := none, language := none, isbn := none, rights := none,
    subtitle := none, series := none, series_index := some 1,
    publisher := none, pubdate := none, file_size := 10 }

/-- Companion store with one shelf "S" (owner admin) holding books 1 and 2
at positions 1 and 2. -/
def appFixtureShelf : AppDB :=
  { emptyApp with
    users := [⟨1, "admin"⟩]
    shelves := [{ id := 10, uuid := "su", name := "S", is_public := false,
                  user_id := 1, kobo_sync := false,
                  created := some "t0", last_modified := some "t0" }]
    links := [⟨1, 10, 1, some "t0"⟩, ⟨2, 10, 2, some "t0"⟩] }

/-- Companion store where reading state 1 points at bookmark 2, which
belongs to reading state 2. -/
def appFixtureCrossed : AppDB :=
  { emptyApp with
    readingStates :=
      [{ id := 1, user_id := 1, book_id := 1, last_modified := some "t",
         priority_timestamp := some "t", current_bookmark := some 2 },
       { id := 2, user_id := 1, book_id := 2, last_modified := some "t",
         priority_timestamp := some "t", current_bookmark := none }]
    bookmarks := [⟨1, 1, "t"⟩, ⟨2, 2, "t"⟩] }

/-- Catalog store with no books but a dangling author link for book 99. -/
def calFixtureDangling : CalDB :=
  { emptyCal with books_authors_link := [⟨99, 7⟩] }

/-- Companion store with a Kobo-sync shelf holding book 5, already fully
set up (reading state, statistics and a correctly linked bookmark). -/
def appFixtureKobo : AppDB :=
  { emptyApp with
    users := [⟨1, "admin"⟩]
    shelves := [{ id := 10, uuid := "su", name := "K", is_public := false,
                  user_id := 1, kobo_sync := true,
                  created := some "2024-01-01 00:00:00.000000",
                  last_modified := some "2024-01-01 00:00:00.000000" }]
    links := [⟨5, 10, 1, some "2024-01-01 00:00:00.000000"⟩]
    readingStates :=
      [{ id := 1, user_id := 1, book_id := 5,
         last_modified := some "2024-01-01 00:00:00.000000",
         priority_timestamp := some "2024-01-01 00:00:00.000000",
         current_bookmark := some 1 }]
    bookmarks := [⟨1, 1, "2024-01-01 00:00:00.000000"⟩]
    statistics := [⟨1, "2024-01-01 00:00:00.000000"⟩] }

/-! ## Theorems -/

/-- C9 (counterexample): the claim says a *trailing* token matching the
suffix set is kept attached to the surname, with output
"Surname[, Suffix], GivenNames".  On "John Doe Jr." the code instead
treats the trailing "Jr." itself as the surname and returns
"Jr., John Doe", not "Doe Jr., John" (nor "Doe, Jr., John"). -/
theorem c9_trailing_suffix_counterexample :
    getAuthorSort "John Doe Jr." = "Jr., John Doe" ∧
    getAuthorSort "John Doe Jr." ≠ "Doe Jr., John" ∧
    getAuthorSort "John Doe Jr." ≠ "Doe, Jr., John" := by
  refine ⟨by decide, by decide, by decide⟩

/-- C9 (amended): the author-sort function splits on whitespace; the final
token is the surname, and the *second-to-last* token is kept attached to
the surname when there are more than two tokens and it matches the suffix
set (Jr., Sr., II, III, IV, Jr, Sr — ASCII-case-insensitively); the
remaining leading tokens become the given-name portion; the output is
"Surname, GivenNames" (or the bare name when it has no separable parts),
e.g. "F. Scott Fitzgerald" yields "Fitzgerald, F. Scott". -/
theorem c9_author_sort_amended :
    (∀ a : String, getAuthorSort a = authorSortKeyAmended a) ∧
    getAuthorSort "F. Scott Fitzgerald" = "Fitzgerald, F. Scott" := by
  constructor
  · intro a
    unfold getAuthorSort authorSortKeyAmended
    by_cases h : (splitWs (strTrim a)).length > 1
    · have h' : ¬ (splitWs (strTrim a)).length ≤ 1 := by omega
      by_cases h2 : (splitWs (strTrim a)).length > 2
      · cases hb : (sortSuffixes.any (fun suf =>
            eqIgnoreAsciiCase ((splitWs (strTrim a)).getD
              ((splitWs (strTrim a)).length - 2) "") suf)) with
        | true => simp only [hb]; simp [h, h', h2]
        | false => simp only [hb]; simp [h, h', h2]
      · simp [h, h', h2]
    · have h' : (splitWs (strTrim a)).length ≤ 1 := by omega
      simp [h, h']
  · decide

/-- C5 (counterexample): in the fixture shelf the positions 1 and 2 are in
use; deleting book 2 frees position 2, and the next insertion computes
max+1 = 2, reusing the removed position — contradicting "a position value
is never reused after a removal". -/
theorem c5_position_reuse_counterexample :
    appFixtureShelf.links.map (fun l => (l.book_id, l.ord)) = [(1, 1), (2, 2)] ∧
    (addBookToShelfCore (removeBookFromShelves appFixtureShelf 2) 3 "S" none
        "u2" "t1").map
      (fun p => (p.1.links.map (fun l => (l.book_id, l.ord)), p.2)) =
      some ([(1, 1), (3, 2)], true) := by
  refine ⟨by decide, by decide⟩

/-- C6 (counterexample): on a store where reading state 1 already carries a
non-null current-bookmark pointing at bookmark 2 (which belongs to reading
state 2), the repair pass leaves the crossed pointer in place, so the
two-way invariant fails after the pass. -/
theorem c6_two_way_counterexample :
    ¬ twoWayInv (fixKoboReadingStateSchema appFixtureCrossed "t2") := by
  decide

/-- C7 (counterexample): a catalog-store dependent row whose book id never
existed in the books table survives the orphan pass untouched: the author
link for book 99 remains although no book 99 exists. -/
theorem c7_orphan_counterexample :
    (cleanupDatabases calFixtureDangling none [] "t").1.books_authors_link =
      [⟨99, 7⟩] ∧
    ¬ (∀ l ∈ (cleanupDatabases calFixtureDangling none [] "t").1.books_authors_link,
        ∃ b ∈ (cleanupDatabases calFixtureDangling none [] "t").1.books,
          b.id = l.book) := by
  refine ⟨by decide, by decide⟩

/-- C8 (counterexample): on a fully consistent store with one Kobo-sync
shelf holding one book, a second run of the sync-repair sweep still resets
the membership timestamp (reports one reset and changes the store), so the
second run is not free of fixes. -/
theorem c8_rerun_counterexample :
    ((fixKoboSyncIssues appFixtureKobo "L1" "U1").bind (fun p =>
      (fixKoboSyncIssues p.1 "L2" "U2").map (fun q =>
        (q.2.reset_timestamps, decide (q.1 = p.1))))) = some (1, false) := by
  decide

/-- C3 (evaluation at the failing input): with an existing book whose
pubdate is set, incoming metadata that drops the pubdate and changes
nothing else, and no hashable existing file, the update path detects a
change (pubdate flag set) yet executes no books-row statement: the result
is UPDATE but the stored row — in particular `last_modified = 100` — is
completely unchanged, contradicting "always refreshes last_modified". -/
theorem c3_update_skips_last_modified_eval :
    addBookToDb calFixtureUpd metaFixtureUpd "h" (fun _ => none) 999 "uu" =
      some (calFixtureUpd, .Updated 1 "P") ∧
    calFixtureUpd.books.map (fun b => b.last_modified) = [100] := by
  have hq : ¬ (|(1 : ℚ) - 1| > epsF64) := by norm_num [epsF64]
  constructor
  · unfold addBookToDb
    have hfind : findBookByNaturalKey calFixtureUpd metaFixtureUpd.title
        (getAuthorSort metaFixtureUpd.author) = some (1, "P") := by decide
    simp only [hfind]
    have hex : getExistingBookData calFixtureUpd 1 = some
        { id := 1, path := "P", pubdate := some 5, series_index := 1,
          publisher := none, series := none } := by decide
    simp only [hex]
    have hch : determineChanges
        { id := 1, path := "P", pubdate := some 5, series_index := 1,
          publisher := none, series := none } metaFixtureUpd =
        { pubdate_changed := true, series_index_changed := false,
          publisher_changed := false, series_changed := false } := by
      unfold determineChanges metaFixtureUpd
      simp [hq]
      norm_num [epsF64]
    simp only [hch]
    simp [applyBooksUpdate, UpdateChanges.hasAny, metaFixtureUpd]
  · decide

/-- Every member of an integer list is bounded by `max?.getD 0`. -/
theorem le_max?_getD_of_mem {l : List Int} {x : Int} (h : x ∈ l) :
    x ≤ (l.max?).getD 0 := by
  rw [List.getD_max?_eq_unbot'_maximum]
  have := List.le_maximum_of_mem' h
  cases hm : l.maximum with
  | bot => rw [hm] at this; simp at this
  | coe m => rw [hm] at this; simpa using this

/-- `find_or_create_shelf` returns the found shelf's id without writing. -/
theorem findOrCreateShelf_found {db : AppDB} {n : String} {uid : Int}
    {sh : ShelfRow} (uuid now : String)
    (hs : db.shelves.find? (fun s => s.name = n ∧ s.user_id = uid) = some sh) :
    findOrCreateShelf db n uid uuid now = (db, sh.id) := by
  unfold findOrCreateShelf
  rw [hs]

/-- `handle_kobo_sync` never touches the membership-link table. -/
theorem handleKoboSync_links (db : AppDB) (a b c : Int) (now : String) :
    (handleKoboSync db a b c now).links = db.links := by
  unfold handleKoboSync
  cases hfind : db.shelves.find? (fun s => s.id = a) with
  | none => simp
  | some s =>
    simp only [hfind]
    cases hks : s.kobo_sync with
    | false => simp [hks]
    | true =>
      cases hany : db.readingStates.any (fun r => r.book_id = b ∧ r.user_id = c) with
      | true => simp [hks, hany]
      | false => simp [hks, hany]

/-- C4: when a membership link for (book, collection) already exists (as
the single row `lk`), re-adding the book returns "not newly added" (not an
error) and leaves exactly that one membership row, with its position from
the first insertion unchanged. -/
theorem c4_membership_idempotent {db : AppDB} {bookId : Int} {shelfName : String}
    {username : Option String} {uid : Int} {sh : ShelfRow}
    {lk : BookShelfLinkRow} (uuid now : String)
    (hu : resolveUserId db username = some uid)
    (hs : db.shelves.find? (fun s => s.name = shelfName ∧ s.user_id = uid) = some sh)
    (hone : db.links.filter (fun l => l.book_id = bookId ∧ l.shelf = sh.id) = [lk]) :
    ∃ db', addBookToShelfCore db bookId shelfName username uuid now =
        some (db', false) ∧
      db'.links.filter (fun l => l.book_id = bookId ∧ l.shelf = sh.id) = [lk] := by
  have hany : db.links.any (fun l => l.book_id = bookId ∧ l.shelf = sh.id) = true := by
    have hmem : lk ∈ db.links.filter (fun l => l.book_id = bookId ∧ l.shelf = sh.id) := by
      rw [hone]; exact List.mem_singleton.mpr rfl
    rw [List.mem_filter] at hmem
    exact List.any_eq_true.mpr ⟨lk, hmem.1, hmem.2⟩
  refine ⟨db, ?_, hone⟩
  unfold addBookToShelfCore
  rw [hu]
  simp only [findOrCreateShelf_found uuid now hs, hany]
  simp

/-- C4 witness: re-adding book 1 to shelf "S" in the fixture store returns
false and keeps the single membership row at position 1. -/
theorem c4_membership_idempotent_witness :
    ∃ db', addBookToShelfCore appFixtureShelf 1 "S" none "u" "t1" =
        some (db', false) ∧
      db'.links.filter (fun l => l.book_id = 1 ∧ l.shelf = (10 : Int)) =
        [⟨1, 10, 1, some "t0"⟩] :=
  @c4_membership_idempotent appFixtureShelf 1 "S" none 1
    ⟨10, "su", "S", false, 1, false, some "t0", some "t0"⟩
    ⟨1, 10, 1, some "t0"⟩ "u" "t1" (by decide) (by decide) (by decide)

/-- C10: a duplicate add performs no companion-store writes at all — when
the membership link already exists the call returns "not newly added" with
the store exactly as it was: no shelf last-modified refresh, no reading
state / statistics / bookmark creation, and no kobo_synced_books
deletion. -/
theorem c10_duplicate_add_frame {db : AppDB} {bookId : Int} {shelfName : String}
    {username : Option String} {uid : Int} {sh : ShelfRow} (uuid now : String)
    (hu : resolveUserId db username = some uid)
    (hs : db.shelves.find? (fun s => s.name = shelfName ∧ s.user_id = uid) = some sh)
    (hl : db.links.any (fun l => l.book_id = bookId ∧ l.shelf = sh.id) = true) :
    addBookToShelfCore db bookId shelfName username uuid now = some (db, false) := by
  unfold addBookToShelfCore
  rw [hu]
  simp only [findOrCreateShelf_found uuid now hs, hl]
  simp

/-- C10 witness: re-adding book 1 to shelf "S" leaves the fixture store
byte-for-byte unchanged. -/
theorem c10_duplicate_add_frame_witness :
    addBookToShelfCore appFixtureShelf 1 "S" none "u" "t1" =
      some (appFixtureShelf, false) :=
  @c10_duplicate_add_frame appFixtureShelf 1 "S" none 1
    ⟨10, "su", "S", false, 1, false, some "t0", some "t0"⟩ "u" "t1"
    (by decide) (by decide) (by decide)

/-- C5 (amended): a newly inserted membership link receives position
max(existing positions in the collection) + 1 (1 when the collection is
empty), which is strictly greater than every position currently present,
and the existing membership rows are appended to unchanged (never
renumbered); a position value freed by a removal can however be reused
when it exceeds the collection's current maximum. -/
theorem c5_position_max_plus_one {db : AppDB} {bookId : Int} {shelfName : String}
    {username : Option String} {uid : Int} {sh : ShelfRow} (uuid now : String)
    (hu : resolveUserId db username = some uid)
    (hs : db.shelves.find? (fun s => s.name = shelfName ∧ s.user_id = uid) = some sh)
    (hno : db.links.any (fun l => l.book_id = bookId ∧ l.shelf = sh.id) = false) :
    (addBookToShelfCore db bookId shelfName username uuid now).map
        (fun p => (p.1.links, p.2)) =
      some (db.links ++
        [{ book_id := bookId, shelf := sh.id,
           ord := (((db.links.filter (fun l => l.shelf = sh.id)).map
             (fun l => l.ord)).max?).getD 0 + 1,
           date_added := some now }], true) ∧
      ∀ l ∈ db.links, l.shelf = sh.id →
        l.ord < (((db.links.filter (fun l => l.shelf = sh.id)).map
          (fun l => l.ord)).max?).getD 0 + 1 := by
  constructor
  · unfold addBookToShelfCore
    rw [hu]
    simp only [findOrCreateShelf_found uuid now hs, hno]
    simp [handleKoboSync_links]
  · intro l hmem hsh
    have hm2 : l.ord ∈ (db.links.filter (fun l => l.shelf = sh.id)).map
        (fun l => l.ord) :=
      List.mem_map_of_mem _ (List.mem_filter.mpr ⟨hmem, by simp [hsh]⟩)
    have := le_max?_getD_of_mem hm2
    omega

/-- C5 witness: adding book 3 to the fixture shelf (positions 1 and 2 in
use) inserts at position 3 = max + 1, leaving the old rows unchanged. -/
theorem c5_position_max_plus_one_witness :
    (addBookToShelfCore appFixtureShelf 3 "S" none "u" "t1").map
        (fun p => (p.1.links, p.2)) =
      some (appFixtureShelf.links ++
        [{ book_id := 3, shelf := (10 : Int),
           ord := (((appFixtureShelf.links.filter
             (fun l => l.shelf = (10 : Int))).map
               (fun l => l.ord)).max?).getD 0 + 1,
           date_added := some "t1" }], true) ∧
      ∀ l ∈ appFixtureShelf.links, l.shelf = (10 : Int) →
        l.ord < (((appFixtureShelf.links.filter
          (fun l => l.shelf = (10 : Int))).map
            (fun l => l.ord)).max?).getD 0 + 1 :=
  @c5_position_max_plus_one appFixtureShelf 3 "S" none 1
    ⟨10, "su", "S", false, 1, false, some "t0", some "t0"⟩ "u" "t1"
    (by decide) (by decide) (by decide)

/-- The missing-bookmark loop only appends bookmark rows. -/
theorem foldBm_mono (now : String) :
    ∀ (missing : List Int) (acc : List BookmarkRow × List ReadingStateRow),
      ∀ b ∈ acc.1, b ∈ (missing.foldl (createMissingBookmark now) acc).1 := by
  intro missing
  induction missing with
  | nil => intro acc b hb; simpa using hb
  | cons i is ih =>
      intro acc b hb
      simp only [List.foldl_cons]
      exact ih _ b (by simp [createMissingBookmark, hb])

/-- The missing-bookmark loop creates a bookmark for every processed
reading-state id. -/
theorem foldBm_covers (now : String) :
    ∀ (missing : List Int) (acc : List BookmarkRow × List ReadingStateRow),
      ∀ i ∈ missing,
        ∃ b ∈ (missing.foldl (createMissingBookmark now) acc).1,
          b.kobo_reading_state_id = i := by
  intro missing
  induction missing with
  | nil => intro acc i hi; simp at hi
  | cons j js ih =>
      intro acc i hi
      simp only [List.foldl_cons]
      rcases List.mem_cons.mp hi with h | h
      · subst h
        refine ⟨⟨nextRowId (acc.1.map (fun b => b.id)), i, now⟩, ?_, rfl⟩
        exact foldBm_mono now js _ _ (by simp [createMissingBookmark])
      · exact ih _ i h

/-- Every reading state coming out of the missing-bookmark loop is either
untouched or now points at one of the loop's bookmarks two-way. -/
theorem foldBm_states (now : String) :
    ∀ (missing : List Int) (acc : List BookmarkRow × List ReadingStateRow),
      ∀ s ∈ (missing.foldl (createMissingBookmark now) acc).2,
        s ∈ acc.2 ∨
        ∃ b ∈ (missing.foldl (createMissingBookmark now) acc).1,
          s.current_bookmark = some b.id ∧ b.kobo_reading_state_id = s.id := by
  intro missing
  induction missing with
  | nil => intro acc s hs; exact Or.inl (by simpa using hs)
  | cons i is ih =>
      intro acc s hs
      simp only [List.foldl_cons] at hs ⊢
      rcases ih _ s hs with h | h
      · simp only [createMissingBookmark] at h
        rcases List.mem_map.mp h with ⟨s0, hs0, hup⟩
        by_cases hid : s0.id = i
        · right
          refine ⟨⟨nextRowId (acc.1.map (fun b => b.id)), i, now⟩,
            foldBm_mono now is _ _ (by simp [createMissingBookmark]), ?_, ?_⟩
          · rw [← hup]; simp [hid]
          · rw [← hup]; simp [hid]
        · left
          rw [← hup]
          simp [hid]
          exact hs0
      · exact Or.inr h

/-- C6 (amended): after a run of the repair pass, every reading-state row
either kept a current-bookmark pointer that was already non-null before
the pass (such a pointer is left as-is even when it references another
reading state's bookmark), or carries a non-null pointer to a bookmark row
of the resulting store whose reading-state id equals the row's own id; in
particular rows repaired by the pass satisfy the tight two-way link. -/
theorem c6_two_way_amended (db : AppDB) (now : String) :
    ∀ r ∈ (fixKoboReadingStateSchema db now).readingStates,
      (r ∈ db.readingStates ∧ r.current_bookmark ≠ none) ∨
      ∃ b ∈ (fixKoboReadingStateSchema db now).bookmarks,
        some b.id = r.current_bookmark ∧ b.kobo_reading_state_id = r.id := by
  intro r hr
  set maxIds := groupMaxIds db.readingStates with hmaxIds
  set dupStates := db.readingStates.filter (fun r => ¬ maxIds.contains r.id)
    with hdup
  set B1 := db.bookmarks.filter (fun b =>
    ¬ dupStates.any (fun d => d.id = b.kobo_reading_state_id)) with hB1
  set S1 := db.readingStates.filter (fun r => maxIds.contains r.id) with hS1def
  set M := (S1.filter (fun r =>
    ¬ B1.any (fun b => b.kobo_reading_state_id = r.id))).map (fun r => r.id)
    with hM
  set F := M.foldl (createMissingBookmark now) (B1, S1) with hF
  have hrs : (fixKoboReadingStateSchema db now).readingStates =
      F.2.map (fun s =>
        if s.current_bookmark = none then
          match F.1.find? (fun b => b.kobo_reading_state_id = s.id) with
          | some b => { s with current_bookmark := some b.id }
          | none => s
        else s) := rfl
  have hbm : (fixKoboReadingStateSchema db now).bookmarks = F.1 := rfl
  rw [hrs] at hr
  rw [hbm]
  rcases List.mem_map.mp hr with ⟨s, hsF, hback⟩
  by_cases hcb : s.current_bookmark = none
  · cases hf : F.1.find? (fun b => b.kobo_reading_state_id = s.id) with
    | some b =>
        have hbmem := List.mem_of_find?_eq_some hf
        have hbpred : b.kobo_reading_state_id = s.id := by
          have := List.find?_some hf
          simpa using this
        have hreq : r = { s with current_bookmark := some b.id } := by
          rw [← hback]; simp [hcb, hf]
        right
        refine ⟨b, hbmem, ?_, ?_⟩
        · rw [hreq]
        · rw [hreq, hbpred]
    | none =>
        exfalso
        rcases foldBm_states now M (B1, S1) s hsF with hS1 | ⟨b, _, hcbs, _⟩
        · by_cases hany : B1.any (fun b => b.kobo_reading_state_id = s.id) = true
          · rcases List.any_eq_true.mp hany with ⟨b, hbB1, hbp⟩
            have hbf : b ∈ F.1 := foldBm_mono now M (B1, S1) b hbB1
            have := List.find?_eq_none.mp hf b hbf
            simp at this hbp
            exact this hbp
          · have hsM : s.id ∈ M := by
              rw [hM]
              exact List.mem_map_of_mem _ (List.mem_filter.mpr
                ⟨hS1, by simpa using hany⟩)
            rcases foldBm_covers now M (B1, S1) s.id hsM with ⟨b, hbmem, hbid⟩
            have := List.find?_eq_none.mp hf b hbmem
            simp [hbid] at this
        · rw [hcb] at hcbs
          exact Option.noConfusion hcbs
  · have hreq : r = s := by rw [← hback]; simp [hcb]
    subst hreq
    rcases foldBm_states now M (B1, S1) r hsF with hS1mem | ⟨b, hbmem, hcbs, hbid⟩
    · left
      refine ⟨?_, hcb⟩
      rw [hS1def] at hS1mem
      exact List.mem_of_mem_filter hS1mem
    · right
      exact ⟨b, hbmem, hcbs.symm, hbid⟩

/-- C6 witness: in the crossed fixture, reading state 1 falls into the
first branch — it existed before the pass with its (dangling) non-null
pointer preserved. -/
theorem c6_two_way_amended_witness :
    ((⟨1, 1, 1, some "t", some "t", some 2⟩ : ReadingStateRow) ∈
        appFixtureCrossed.readingStates ∧
      (⟨1, 1, 1, some "t", some "t", some 2⟩ : ReadingStateRow).current_bookmark ≠
        none) ∨
    ∃ b ∈ (fixKoboReadingStateSchema appFixtureCrossed "t2").bookmarks,
      some b.id =
        (⟨1, 1, 1, some "t", some "t", some 2⟩ : ReadingStateRow).current_bookmark ∧
      b.kobo_reading_state_id =
        (⟨1, 1, 1, some "t", some "t", some 2⟩ : ReadingStateRow).id :=
  c6_two_way_amended appFixtureCrossed "t2"
    ⟨1, 1, 1, some "t", some "t", some 2⟩ (by decide)

/-- Folding `max` over a list bounds the seed and every member. -/
theorem le_foldl_max (l : List Int) :
    ∀ a : Int, a ≤ l.foldl max a ∧ ∀ x ∈ l, x ≤ l.foldl max a := by
  induction l with
  | nil => intro a; simp
  | cons y ys ih =>
      intro a
      refine ⟨le_trans (le_max_left a y) (ih (max a y)).1, ?_⟩
      intro x hx
      rcases List.mem_cons.mp hx with rfl | hx
      · exact le_trans (le_max_right a x) (ih (max a x)).1
      · exact (ih (max a y)).2 x hx

/-- A freshly assigned rowid is strictly larger than every existing id. -/
theorem lt_nextRowId_of_mem {l : List Int} {x : Int} (h : x ∈ l) :
    x < nextRowId l := by
  have := (le_foldl_max l 0).2 x h
  unfold nextRowId
  omega

/-- Author find-or-create never touches the books table. -/
theorem findOrCreateAuthor_books (db : CalDB) (n s : String) :
    ((findOrCreateAuthor db n s).1).books = db.books := by
  unfold findOrCreateAuthor
  split <;> rfl

/-- Publisher find-or-create never touches the books table. -/
theorem findOrCreatePublisher_books (db : CalDB) (n : String) :
    ((findOrCreatePublisher db n).1).books = db.books := by
  unfold findOrCreatePublisher
  split <;> rfl

/-- Series find-or-create never touches the books table. -/
theorem findOrCreateSeries_books (db : CalDB) (n s : String) :
    ((findOrCreateSeries db n s).1).books = db.books := by
  unfold findOrCreateSeries
  split <;> rfl

/-- Language find-or-create never touches the books table. -/
theorem findOrCreateLanguage_books (db : CalDB) (c : String) :
    ((findOrCreateLanguage db c).1).books = db.books := by
  unfold findOrCreateLanguage
  split <;> rfl

/-- The books-row UPDATE statements never change a row id or path. -/
theorem applyBooksUpdate_idPath (db : CalDB) (bid : Int) (ch : UpdateChanges)
    (m : BookMeta) (now : Int) :
    ((applyBooksUpdate db bid ch m now).books).map (fun b => (b.id, b.path)) =
      db.books.map (fun b => (b.id, b.path)) := by
  unfold applyBooksUpdate
  repeat' split
  all_goals
    first
    | rfl
    | (rw [List.map_map]
       refine List.map_congr_left ?_
       intro b _
       by_cases hb : b.id = bid <;> simp [hb])

/-- The publisher link rewrite never touches the books table. -/
theorem applyPublisherUpdate_books (db : CalDB) (bid : Int) (m : BookMeta) :
    (applyPublisherUpdate db bid m).books = db.books := by
  unfold applyPublisherUpdate
  cases m.publisher with
  | none => rfl
  | some n => simp only [findOrCreatePublisher_books]

/-- The series link rewrite never touches the books table. -/
theorem applySeriesUpdate_books (db : CalDB) (bid : Int) (m : BookMeta) :
    (applySeriesUpdate db bid m).books = db.books := by
  unfold applySeriesUpdate
  cases m.series with
  | none => rfl
  | some n => simp only [findOrCreateSeries_books]

/-- C2: whenever the natural-key lookup finds an existing book, the import
never takes the CREATE path: the result carries the existing surrogate id
and the stored storage path, and no statement of the update path writes the
books row's path column — every book keeps its (id, path) pair. -/
theorem c2_natural_key_stability {db : CalDB} {m : BookMeta} {nh : String}
    {ef : String → Option String} {now : Int} {uuid : String}
    {bid : Int} {bpath : String}
    (hfind : findBookByNaturalKey db m.title (getAuthorSort m.author) =
      some (bid, bpath)) :
    ∃ db' r, addBookToDb db m nh ef now uuid = some (db', r) ∧
      (∀ i p, r ≠ .Created i p) ∧ r.bookId = bid ∧ r.bookPath = bpath ∧
      db'.books.map (fun b => (b.id, b.path)) =
        db.books.map (fun b => (b.id, b.path)) := by
  have hexist : ∃ b1, db.books.find? (fun b => b.id = bid) = some b1 := by
    rcases Option.map_eq_some'.mp hfind with ⟨b0, hb0, hval⟩
    have hb0mem := List.mem_of_find?_eq_some hb0
    have : (db.books.find? (fun b => b.id = bid)).isSome := by
      rw [List.find?_isSome]
      exact ⟨b0, hb0mem, by simp [show b0.id = bid from congrArg Prod.fst hval]⟩
    exact Option.isSome_iff_exists.mp this
  rcases hexist with ⟨b1, hb1⟩
  have hexd : ∃ exd, getExistingBookData db bid = some exd := by
    unfold getExistingBookData
    rw [hb1]
    exact ⟨_, rfl⟩
  rcases hexd with ⟨exd, hexd⟩
  have hser : ∀ (d : CalDB) (c : Bool),
      (if c = true then applySeriesUpdate d bid m else d).books = d.books := by
    intro d c
    cases c <;> simp [applySeriesUpdate_books]
  have hpub : ∀ (d : CalDB) (c : Bool),
      (if c = true then applyPublisherUpdate d bid m else d).books = d.books := by
    intro d c
    cases c <;> simp [applyPublisherUpdate_books]
  unfold addBookToDb
  simp only [hfind]
  cases hhe : (match ef bpath with | some hh => hh == nh | none => false) with
  | true =>
      refine ⟨db, .NoChanges bid bpath, ?_,
        fun i p h => UpsertResult.noConfusion h, rfl, rfl, rfl⟩
      simp [hhe]
  | false =>
      cases hch : (determineChanges exd m).hasAny with
      | false =>
          refine ⟨db, .NoChanges bid bpath, ?_,
            fun i p h => UpsertResult.noConfusion h, rfl, rfl, rfl⟩
          simp [hhe, hexd, hch]
      | true =>
          refine ⟨(if (determineChanges exd m).series_changed = true
              then applySeriesUpdate
                (if (determineChanges exd m).publisher_changed = true
                  then applyPublisherUpdate
                    (applyBooksUpdate db bid (determineChanges exd m) m now) bid m
                  else applyBooksUpdate db bid (determineChanges exd m) m now) bid m
              else (if (determineChanges exd m).publisher_changed = true
                then applyPublisherUpdate
                  (applyBooksUpdate db bid (determineChanges exd m) m now) bid m
                else applyBooksUpdate db bid (determineChanges exd m) m now)),
            .Updated bid bpath, ?_,
            fun i p h => UpsertResult.noConfusion h, rfl, rfl, ?_⟩
          · simp [hhe, hexd, hch]
          · rw [hser, hpub, applyBooksUpdate_idPath]

/-- Mapping a function that fixes every old row over `old ++ [new]`. -/
theorem map_append_single (l : List BookRow) (nb : BookRow) (f : BookRow → BookRow)
    (hf : ∀ b ∈ l, f b = b) : (l ++ [nb]).map f = l ++ [f nb] := by
  rw [List.map_append]
  have : l.map f = l.map (fun b => b) := List.map_congr_left hf
  simp [this]

/-- The create path appends exactly one book row, carrying the incoming
title and the computed author sort, and reports its id and path. -/
theorem createBook_found {db : CalDB} {m : BookMeta} {now : Int} {uuid : String}
    {db' : CalDB} {r : UpsertResult}
    (h : createBook db m now uuid = some (db', r)) :
    ∃ nb : BookRow, db'.books = db.books ++ [nb] ∧
      nb.title = m.title ∧ nb.author_sort = getAuthorSort m.author ∧
      r = .Created nb.id nb.path := by
  unfold createBook at h
  cases hfmt : formatOfPath m.path with
  | none =>
      simp only [hfmt] at h
      exact Option.noConfusion h
  | some fmt =>
      simp only [hfmt] at h
      rw [Option.some.injEq, Prod.mk.injEq] at h
      obtain ⟨hdb, hr⟩ := h
      subst hdb
      subst hr
      obtain ⟨mt, ma, mpath, mdesc, mlang, misbn, mrights, msub, mser, msi, mpub, mpd, mfs⟩ := m
      have hid : ∀ (b : BookRow), b ∈ db.books →
          ¬ b.id = nextRowId (db.books.map (fun b => b.id)) :=
        fun b hb => ne_of_lt (lt_nextRowId_of_mem (List.mem_map_of_mem _ hb))
      cases mser <;> cases msi <;> cases mpub <;> cases misbn <;> cases mlang <;>
      · simp only [findOrCreateSeries_books, findOrCreatePublisher_books,
          findOrCreateLanguage_books, findOrCreateAuthor_books,
          apply_ite (fun d : CalDB => d.books), ite_self]
        rw [map_append_single db.books _ _ (fun b hb => by simp [hid b hb])]
        first
        | (rw [map_append_single db.books _ _ (fun b hb => by simp [hid b hb])]
           exact ⟨_, rfl, by simp, by simp, by simp⟩)
        | exact ⟨_, rfl, by simp, by simp, by simp⟩

/-- When the natural-key lookup succeeds and the located existing file
hashes equal to the incoming file, the upsert is a pure NO-OP. -/
theorem addBookToDb_noop {db : CalDB} {m : BookMeta} {ef : String → Option String}
    {hsh : String} {now : Int} {uuid : String} {bid : Int} {bpath : String}
    (hfind : findBookByNaturalKey db m.title (getAuthorSort m.author) =
      some (bid, bpath))
    (hhash : ef bpath = some hsh) :
    addBookToDb db m hsh ef now uuid = some (db, .NoChanges bid bpath) := by
  unfold addBookToDb
  simp [hfind, hhash]

/-- C1: (1) when the (title, author-sort) lookup matches an existing book
and the located existing on-disk file's hash is byte-equal to the incoming
hash, `add_book_to_db` returns NO-OP carrying the existing id and path,
performs zero database writes (the store is returned unchanged), and
signals that all file operations be skipped; (2) hence importing the same
unchanged file twice yields CREATE then NO-OP with an identical book id. -/
theorem c1_noop_on_identical_hash :
    (∀ (db : CalDB) (m : BookMeta) (ef : String → Option String) (hsh : String)
        (now : Int) (uuid : String) (bid : Int) (bpath : String),
      findBookByNaturalKey db m.title (getAuthorSort m.author) = some (bid, bpath) →
      ef bpath = some hsh →
      addBookToDb db m hsh ef now uuid = some (db, .NoChanges bid bpath) ∧
        (UpsertResult.NoChanges bid bpath).skipFileOps = true) ∧
    (∀ (db0 db1 : CalDB) (m : BookMeta) (ef0 ef1 : String → Option String)
        (h0 h1 : String) (now0 now1 : Int) (uuid0 uuid1 : String)
        (n : Int) (p : String),
      findBookByNaturalKey db0 m.title (getAuthorSort m.author) = none →
      addBookToDb db0 m h0 ef0 now0 uuid0 = some (db1, .Created n p) →
      ef1 p = some h1 →
      addBookToDb db1 m h1 ef1 now1 uuid1 = some (db1, .NoChanges n p)) := by
  constructor
  · intro db m ef hsh now uuid bid bpath hfind hhash
    exact ⟨addBookToDb_noop hfind hhash, rfl⟩
  · intro db0 db1 m ef0 ef1 h0 h1 now0 now1 uuid0 uuid1 n p hnone hcreate hhash
    have hcb : createBook db0 m now0 uuid0 = some (db1, .Created n p) := by
      unfold addBookToDb at hcreate
      simp only [hnone] at hcreate
      exact hcreate
    obtain ⟨nb, hbooks, hnbt, hnbas, hreq⟩ := createBook_found hcb
    rw [UpsertResult.Created.injEq] at hreq
    obtain ⟨hn, hp⟩ := hreq
    have hfind1 : findBookByNaturalKey db1 m.title (getAuthorSort m.author) =
        some (n, p) := by
      unfold findBookByNaturalKey at hnone ⊢
      rw [hbooks, List.find?_append]
      have h0' : db0.books.find? (fun b => b.title = m.title ∧
          b.author_sort = getAuthorSort m.author) = none := by
        rcases ho : db0.books.find? (fun b => b.title = m.title ∧
            b.author_sort = getAuthorSort m.author) with _ | b
        · exact ho
        · rw [ho] at hnone
          simp at hnone
      rw [h0']
      simp [List.find?, hnbt, hnbas, hn, hp]
    exact addBookToDb_noop hfind1 hhash

/-- C1 witness: on the one-book fixture with a matching stored hash, the
re-import is a NO-OP with the existing id 1 and path "P". -/
theorem c1_noop_on_identical_hash_witness :
    addBookToDb calFixtureUpd metaFixtureUpd "h"
        (fun q => if q = "P" then some "h" else none) 999 "uu" =
      some (calFixtureUpd, .NoChanges 1 "P") ∧
    (UpsertResult.NoChanges 1 "P").skipFileOps = true :=
  c1_noop_on_identical_hash.1 calFixtureUpd metaFixtureUpd
    (fun q => if q = "P" then some "h" else none) "h" 999 "uu" 1 "P"
    (by decide) (by decide)

/-- C2 witness: re-importing metadata that matches the fixture book by
natural key yields a non-CREATE result with id 1 and path "P", with every
(id, path) pair preserved. -/
theorem c2_natural_key_stability_witness :
    ∃ db' r, addBookToDb calFixtureUpd metaFixtureUpd "x" (fun _ => none)
        999 "uu" = some (db', r) ∧
      (∀ i p, r ≠ .Created i p) ∧ r.bookId = 1 ∧ r.bookPath = "P" ∧
      db'.books.map (fun b => (b.id, b.path)) =
        calFixtureUpd.books.map (fun b => (b.id, b.path)) :=
  c2_natural_key_stability (by decide)

/-- After the catalog orphan pass, every remaining book has an on-disk
content directory. -/
theorem cleanupMetadata_books_path (cal : CalDB) (paths : List String) :
    ∀ b ∈ (cleanupMetadata cal paths).books, paths.contains b.path = true := by
  intro b hb
  have hb' : b ∈ cal.books.filter (fun b =>
      ¬ ((cal.books.filter (fun b => ¬ paths.contains b.path)).map
        (fun b => b.id)).contains b.id) := hb
  rw [List.mem_filter] at hb'
  have h2 := hb'.2
  simp at h2
  by_cases hc : b.path ∈ paths
  · simp [hc]
  · exact absurd rfl (h2 b hb'.1 hc)

/-- After the catalog orphan pass, a surviving dependent row whose book id
existed before the pass still has its book. -/
theorem calDep_keep (cal : CalDB) (paths : List String) :
    ∀ bid ∈ calDepBookIds (cleanupMetadata cal paths),
      (∃ b ∈ cal.books, b.id = bid) →
      ∃ b ∈ (cleanupMetadata cal paths).books, b.id = bid := by
  intro bid hdep hpre
  obtain ⟨b0, hb0, hb0id⟩ := hpre
  simp [calDepBookIds, cleanupMetadata] at hdep
  have hcond : ∀ x ∈ cal.books, x.path ∉ paths → ¬ x.id = bid := by
    rcases hdep with (h|h|h|h|h|h|h|h|h|h|h) <;>
      (obtain ⟨l, ⟨hmem, hk⟩, hb⟩ := h; subst hb; exact hk)
  refine ⟨b0, ?_, hb0id⟩
  have : b0 ∈ cal.books.filter (fun b =>
      ¬ ((cal.books.filter (fun b => ¬ paths.contains b.path)).map
        (fun b => b.id)).contains b.id) := by
    rw [List.mem_filter]
    refine ⟨hb0, ?_⟩
    simp
    intro x hx hpx
    rw [hb0id]
    exact hcond x hx hpx
  exact this

/-- The companion cleanup only removes rows: every surviving book
reference existed before. -/
theorem appDep_subset (app : AppDB) (valid : List Int) (now : String) :
    ∀ bid ∈ appDepBookIds (cleanupAppdb app valid now), bid ∈ appDepBookIds app := by
  intro bid hdep
  simp [appDepBookIds, cleanupAppdb] at hdep ⊢
  rcases hdep with ⟨l, ⟨⟨l0, hl0, hfix⟩, _⟩, hb⟩ | ⟨d, ⟨hd, _⟩, hb⟩ |
      ⟨a, ⟨ha, _⟩, hb⟩ | ⟨sb, ⟨hsb, _⟩, hb⟩ | ⟨r, ⟨hr, _⟩, hb⟩
  · left
    refine ⟨l0, hl0, ?_⟩
    rw [← hb, ← hfix]
    by_cases hda : l0.date_added = none <;> simp [hda]
  · exact Or.inr (Or.inl ⟨d, hd, hb⟩)
  · exact Or.inr (Or.inr (Or.inl ⟨a, ha, hb⟩))
  · exact Or.inr (Or.inr (Or.inr (Or.inl ⟨sb, hsb, hb⟩)))
  · exact Or.inr (Or.inr (Or.inr (Or.inr ⟨r, hr, hb⟩)))

/-- After the companion cleanup, every surviving row carrying a book id
references a book of the cleaned catalog (no row uses the sentinel -1). -/
theorem appDep_valid (app : AppDB) (cal' : CalDB) (now : String)
    (hneg : (-1 : Int) ∉ appDepBookIds app) :
    ∀ bid ∈ appDepBookIds (cleanupAppdb app (cal'.books.map (fun b => b.id)) now),
      ∃ b ∈ cal'.books, b.id = bid := by
  intro bid hdep
  have hsub := appDep_subset app _ now bid hdep
  have hinl : bid ∈ inlinedIdList (cal'.books.map (fun b => b.id)) := by
    simp [appDepBookIds, cleanupAppdb] at hdep
    rcases hdep with ⟨l, ⟨⟨l0, hl0, hfix⟩, hc⟩, hb⟩ | ⟨d, ⟨hd, hc⟩, hb⟩ |
        ⟨a, ⟨ha, hc⟩, hb⟩ | ⟨sb, ⟨hsb, hc⟩, hb⟩ | ⟨r, ⟨hr, hc⟩, hb⟩ <;>
      (subst hb; simpa using hc)
  rcases hv : cal'.books.map (fun b => b.id) with _ | ⟨x, xs⟩
  · rw [hv] at hinl
    simp [inlinedIdList] at hinl
    subst hinl
    exact absurd hsub hneg
  · have hmm : bid ∈ cal'.books.map (fun b => b.id) := by
      rw [hv]
      rw [hv] at hinl
      simpa [inlinedIdList] using hinl
    obtain ⟨b, hbmem, hbid⟩ := List.mem_map.mp hmm
    exact ⟨b, hbmem, hbid⟩

/-- After the companion cleanup no empty shelf remains. -/
theorem cleanupAppdb_shelves (app : AppDB) (valid : List Int) (now : String) :
    ∀ s ∈ (cleanupAppdb app valid now).shelves,
      ∃ l ∈ (cleanupAppdb app valid now).links, l.shelf = s.id := by
  intro s hs
  simp [cleanupAppdb] at hs ⊢
  obtain ⟨x, hx, hinl, hsh⟩ := hs.2
  exact ⟨_, ⟨⟨x, hx, rfl⟩, hinl⟩, hsh⟩

/-- After the companion cleanup, a surviving bookmark whose reading state
existed before the pass still has its reading state. -/
theorem cleanupAppdb_bookmark_rs (app : AppDB) (cal' : CalDB) (now : String)
    (hneg : (-1 : Int) ∉ appDepBookIds app) :
    ∀ bm ∈ (cleanupAppdb app (cal'.books.map (fun b => b.id)) now).bookmarks,
      (∃ r ∈ app.readingStates, r.id = bm.kobo_reading_state_id) →
      ∃ r ∈ (cleanupAppdb app (cal'.books.map (fun b => b.id)) now).readingStates,
        r.id = bm.kobo_reading_state_id := by
  intro bm hbm hpre
  obtain ⟨r0, hr0, hr0id⟩ := hpre
  have hsurv : ¬ (app.readingStates.any (fun r =>
      r.id = bm.kobo_reading_state_id ∧
        boundParamNotIn (cal'.books.map (fun b => b.id)) r.book_id)) = true := by
    have hbm' : bm ∈ app.bookmarks.filter (fun b =>
        ¬ app.readingStates.any (fun r => r.id = b.kobo_reading_state_id ∧
          boundParamNotIn (cal'.books.map (fun b => b.id)) r.book_id)) := hbm
    rw [List.mem_filter] at hbm'
    simpa using hbm'.2
  have hnotp : ¬ boundParamNotIn (cal'.books.map (fun b => b.id)) r0.book_id = true := by
    intro hp
    exact hsurv (List.any_eq_true.mpr ⟨r0, hr0, by simp [hr0id, hp]⟩)
  have hrneg : r0.book_id ≠ -1 := by
    intro hm1
    apply hneg
    simp [appDepBookIds]
    exact Or.inr (Or.inr (Or.inr (Or.inr ⟨r0, hr0, hm1⟩)))
  rcases hv : cal'.books.map (fun b => b.id) with _ | ⟨x, xs⟩
  · rw [hv] at hnotp
    simp [boundParamNotIn] at hnotp
    exact absurd hnotp hrneg
  · rcases hxs : xs with _ | ⟨y, ys⟩
    · rw [hv, hxs] at hnotp
      simp [boundParamNotIn] at hnotp
      refine ⟨r0, ?_, hr0id⟩
      have : r0 ∈ app.readingStates.filter (fun r =>
          (inlinedIdList (cal'.books.map (fun b => b.id))).contains r.book_id) := by
        rw [List.mem_filter]
        refine ⟨hr0, ?_⟩
        rw [hv, hxs]
        simp [inlinedIdList, hnotp]
      exact this
    · exfalso
      rw [hv, hxs] at hnotp
      simp [boundParamNotIn] at hnotp

/-- After the companion cleanup, a surviving statistics row whose reading
state existed before the pass still has its reading state. -/
theorem cleanupAppdb_statistics_rs (app : AppDB) (cal' : CalDB) (now : String)
    (hneg : (-1 : Int) ∉ appDepBookIds app) :
    ∀ st ∈ (cleanupAppdb app (cal'.books.map (fun b => b.id)) now).statistics,
      (∃ r ∈ app.readingStates, r.id = st.kobo_reading_state_id) →
      ∃ r ∈ (cleanupAppdb app (cal'.books.map (fun b => b.id)) now).readingStates,
        r.id = st.kobo_reading_state_id := by
  intro st hst hpre
  obtain ⟨r0, hr0, hr0id⟩ := hpre
  have hsurv : ¬ (app.readingStates.any (fun r =>
      r.id = st.kobo_reading_state_id ∧
        boundParamNotIn (cal'.books.map (fun b => b.id)) r.book_id)) = true := by
    have hst' : st ∈ app.statistics.filter (fun b =>
        ¬ app.readingStates.any (fun r => r.id = b.kobo_reading_state_id ∧
          boundParamNotIn (cal'.books.map (fun b => b.id)) r.book_id)) := hst
    rw [List.mem_filter] at hst'
    simpa using hst'.2
  have hnotp : ¬ boundParamNotIn (cal'.books.map (fun b => b.id)) r0.book_id = true := by
    intro hp
    exact hsurv (List.any_eq_true.mpr ⟨r0, hr0, by simp [hr0id, hp]⟩)
  have hrneg : r0.book_id ≠ -1 := by
    intro hm1
    apply hneg
    simp [appDepBookIds]
    exact Or.inr (Or.inr (Or.inr (Or.inr ⟨r0, hr0, hm1⟩)))
  rcases hv : cal'.books.map (fun b => b.id) with _ | ⟨x, xs⟩
  · rw [hv] at hnotp
    simp [boundParamNotIn] at hnotp
    exact absurd hnotp hrneg
  · rcases hxs : xs with _ | ⟨y, ys⟩
    · rw [hv, hxs] at hnotp
      simp [boundParamNotIn] at hnotp
      refine ⟨r0, ?_, hr0id⟩
      have : r0 ∈ app.readingStates.filter (fun r =>
          (inlinedIdList (cal'.books.map (fun b => b.id))).contains r.book_id) := by
        rw [List.mem_filter]
        refine ⟨hr0, ?_⟩
        rw [hv, hxs]
        simp [inlinedIdList, hnotp]
      exact this
    · exfalso
      rw [hv, hxs] at hnotp
      simp [boundParamNotIn] at hnotp

/-- C7 (amended): after one orphan pass, every remaining catalog book's
directory exists on disk; every remaining catalog dependent row whose book
id existed before the pass references a still-existing book (a dependent
row whose book id never existed is NOT removed — see the counterexample);
and, provided no companion row carries the sentinel book id -1, every
remaining companion row carrying a book id (membership links, downloads,
archived books, sync acknowledgments, reading states) references an
existing catalog book, every remaining bookmark or statistics row whose
reading state existed keeps an existing reading state, and no emptied
collection remains. -/
theorem c7_orphan_sweep_amended (cal : CalDB) (app : AppDB) (paths : List String)
    (now : String) (hneg : (-1 : Int) ∉ appDepBookIds app) :
    (∀ b ∈ (cleanupDatabases cal (some app) paths now).1.books,
       paths.contains b.path = true) ∧
    (∀ bid ∈ calDepBookIds (cleanupDatabases cal (some app) paths now).1,
       (∃ b ∈ cal.books, b.id = bid) →
       ∃ b ∈ (cleanupDatabases cal (some app) paths now).1.books, b.id = bid) ∧
    (∀ app', (cleanupDatabases cal (some app) paths now).2 = some app' →
       (∀ bid ∈ appDepBookIds app',
          ∃ b ∈ (cleanupDatabases cal (some app) paths now).1.books, b.id = bid) ∧
       (∀ s ∈ app'.shelves, ∃ l ∈ app'.links, l.shelf = s.id) ∧
       (∀ bm ∈ app'.bookmarks,
          (∃ r ∈ app.readingStates, r.id = bm.kobo_reading_state_id) →
          ∃ r ∈ app'.readingStates, r.id = bm.kobo_reading_state_id) ∧
       (∀ st ∈ app'.statistics,
          (∃ r ∈ app.readingStates, r.id = st.kobo_reading_state_id) →
          ∃ r ∈ app'.readingStates, r.id = st.kobo_reading_state_id)) := by
  refine ⟨cleanupMetadata_books_path cal paths, calDep_keep cal paths, ?_⟩
  intro app' happ'
  have : app' = cleanupAppdb app
      ((cleanupMetadata cal paths).books.map (fun b => b.id)) now :=
    (Option.some.inj happ').symm
  subst this
  exact ⟨appDep_valid app (cleanupMetadata cal paths) now hneg,
    cleanupAppdb_shelves app _ now,
    cleanupAppdb_bookmark_rs app (cleanupMetadata cal paths) now hneg,
    cleanupAppdb_statistics_rs app (cleanupMetadata cal paths) now hneg⟩

/-- C7 witness: the one-book catalog with its directory present and an
empty companion store satisfies every clause of the amended orphan-sweep
theorem. -/
theorem c7_orphan_sweep_amended_witness :
    (∀ b ∈ (cleanupDatabases calFixtureUpd (some emptyApp) ["P"] "t").1.books,
       (["P"].contains b.path) = true) ∧
    (∀ bid ∈ calDepBookIds (cleanupDatabases calFixtureUpd (some emptyApp) ["P"] "t").1,
       (∃ b ∈ calFixtureUpd.books, b.id = bid) →
       ∃ b ∈ (cleanupDatabases calFixtureUpd (some emptyApp) ["P"] "t").1.books,
         b.id = bid) ∧
    (∀ app', (cleanupDatabases calFixtureUpd (some emptyApp) ["P"] "t").2 = some app' →
       (∀ bid ∈ appDepBookIds app',
          ∃ b ∈ (cleanupDatabases calFixtureUpd (some emptyApp) ["P"] "t").1.books,
            b.id = bid) ∧
       (∀ s ∈ app'.shelves, ∃ l ∈ app'.links, l.shelf = s.id) ∧
       (∀ bm ∈ app'.bookmarks,
          (∃ r ∈ emptyApp.readingStates, r.id = bm.kobo_reading_state_id) →
          ∃ r ∈ app'.readingStates, r.id = bm.kobo_reading_state_id) ∧
       (∀ st ∈ app'.statistics,
          (∃ r ∈ emptyApp.readingStates, r.id = st.kobo_reading_state_id) →
          ∃ r ∈ app'.readingStates, r.id = st.kobo_reading_state_id)) :=
  c7_orphan_sweep_amended calFixtureUpd emptyApp ["P"] "t" (by decide)

/-- The catalog orphan pass is idempotent. -/
theorem cleanupMetadata_idem (cal : CalDB) (paths : List String) :
    cleanupMetadata (cleanupMetadata cal paths) paths = cleanupMetadata cal paths := by
  have hempty : (cleanupMetadata cal paths).books.filter
      (fun b => ¬ paths.contains b.path) = [] := by
    rw [List.filter_eq_nil_iff]
    intro b hb
    have := cleanupMetadata_books_path cal paths b hb
    simp at this
    simp [this]
  conv =>
    lhs
    rw [cleanupMetadata]
  rw [hempty]
  simp [List.filter_filter]
  have hauth : (cleanupMetadata cal paths).authors.filter
      (fun a => (cleanupMetadata cal paths).books_authors_link.any
        (fun l => l.ref = a.id)) = (cleanupMetadata cal paths).authors := by
    conv =>
      lhs
      rw [show (cleanupMetadata cal paths).authors = cal.authors.filter
        (fun a => (cleanupMetadata cal paths).books_authors_link.any
          (fun l => l.ref = a.id)) from rfl]
    rw [List.filter_filter]
    simp
    rfl
  have hpub : (cleanupMetadata cal paths).publishers.filter
      (fun p => (cleanupMetadata cal paths).books_publishers_link.any
        (fun l => l.ref = p.id)) = (cleanupMetadata cal paths).publishers := by
    conv =>
      lhs
      rw [show (cleanupMetadata cal paths).publishers = cal.publishers.filter
        (fun p => (cleanupMetadata cal paths).books_publishers_link.any
          (fun l => l.ref = p.id)) from rfl]
    rw [List.filter_filter]
    simp
    rfl
  have hser : (cleanupMetadata cal paths).series.filter
      (fun t => (cleanupMetadata cal paths).books_series_link.any
        (fun l => l.ref = t.id)) = (cleanupMetadata cal paths).series := by
    conv =>
      lhs
      rw [show (cleanupMetadata cal paths).series = cal.series.filter
        (fun t => (cleanupMetadata cal paths).books_series_link.any
          (fun l => l.ref = t.id)) from rfl]
    rw [List.filter_filter]
    simp
    rfl
  have htag : (cleanupMetadata cal paths).tags.filter
      (fun t => (cleanupMetadata cal paths).books_tags_link.any
        (fun l => l.ref = t.id)) = (cleanupMetadata cal paths).tags := by
    conv =>
      lhs
      rw [show (cleanupMetadata cal paths).tags = cal.tags.filter
        (fun t => (cleanupMetadata cal paths).books_tags_link.any
          (fun l => l.ref = t.id)) from rfl]
    rw [List.filter_filter]
    simp
    rfl
  rw [hauth, hpub, hser, htag]

/-- The three NULL-timestamp repair statements leave every shelf with both
timestamps set. -/
theorem shelfFix_nonull (now : String) (s0 : ShelfRow) :
    (let s1 := if s0.created = none ∧ s0.last_modified ≠ none then
        { s0 with created := s0.last_modified } else s0
     let s2 := if s1.last_modified = none ∧ s1.created ≠ none then
        { s1 with last_modified := s1.created } else s1
     let s3 := if s2.created = none ∧ s2.last_modified = none then
        { s2 with created := some now, last_modified := some now } else s2
     s3.created ≠ none ∧ s3.last_modified ≠ none) := by
  cases hc : s0.created <;> cases hl : s0.last_modified <;> simp [hc, hl]

/-- The companion-store cleanup is idempotent. -/
theorem cleanupAppdb_idem (app : AppDB) (valid : List Int) (now now' : String) :
    cleanupAppdb (cleanupAppdb app valid now) valid now' =
      cleanupAppdb app valid now := by
  set B := cleanupAppdb app valid now with hB
  have hlinks_nonull : ∀ l ∈ B.links, l.date_added ≠ none := by
    intro l hl
    have hl' : l ∈ (app.links.map (fun l =>
        if l.date_added = none then { l with date_added := some now } else l)).filter
          (fun l => (inlinedIdList valid).contains l.book_id) := hl
    rw [List.mem_filter] at hl'
    obtain ⟨l0, _, hfix⟩ := List.mem_map.mp hl'.1
    rw [← hfix]
    by_cases hd : l0.date_added = none <;> simp [hd]
  have hsh_nonull : ∀ s ∈ B.shelves, s.created ≠ none ∧ s.last_modified ≠ none := by
    intro s hs
    have hs' : s ∈ (((app.shelves.map (fun s =>
        if s.created = none ∧ s.last_modified ≠ none then
          { s with created := s.last_modified } else s)).map (fun s =>
        if s.last_modified = none ∧ s.created ≠ none then
          { s with last_modified := s.created } else s)).map (fun s =>
        if s.created = none ∧ s.last_modified = none then
          { s with created := some now, last_modified := some now } else s)).filter
        (fun s => B.links.any (fun l => l.shelf = s.id)) := hs
    rw [List.mem_filter] at hs'
    obtain ⟨s2, hs2, hfix3⟩ := List.mem_map.mp hs'.1
    obtain ⟨s1, hs1, hfix2⟩ := List.mem_map.mp hs2
    obtain ⟨s0, _, hfix1⟩ := List.mem_map.mp hs1
    rw [← hfix3, ← hfix2, ← hfix1]
    exact shelfFix_nonull now s0
  have hsh_haslink : ∀ s ∈ B.shelves, B.links.any (fun l => l.shelf = s.id) = true := by
    intro s hs
    have hs' : s ∈ (((app.shelves.map (fun s =>
        if s.created = none ∧ s.last_modified ≠ none then
          { s with created := s.last_modified } else s)).map (fun s =>
        if s.last_modified = none ∧ s.created ≠ none then
          { s with last_modified := s.created } else s)).map (fun s =>
        if s.created = none ∧ s.last_modified = none then
          { s with created := some now, last_modified := some now } else s)).filter
        (fun s => B.links.any (fun l => l.shelf = s.id)) := hs
    rw [List.mem_filter] at hs'
    exact hs'.2
  have hbm_keep : ∀ b ∈ B.bookmarks,
      (¬ B.readingStates.any (fun r => r.id = b.kobo_reading_state_id ∧
        boundParamNotIn valid r.book_id) : Bool) = true := by
    intro b hb
    have hb' : b ∈ app.bookmarks.filter (fun b =>
        ¬ app.readingStates.any (fun r => r.id = b.kobo_reading_state_id ∧
          boundParamNotIn valid r.book_id)) := hb
    rw [List.mem_filter] at hb'
    have hnone := hb'.2
    simp only [decide_not, Bool.not_eq_true', decide_eq_false_iff_not] at hnone
    simp only [decide_not, Bool.not_eq_true', decide_eq_false_iff_not]
    intro hany
    rcases List.any_eq_true.mp hany with ⟨r, hrB, hrc⟩
    have hrApp : r ∈ app.readingStates ∧
        ((inlinedIdList valid).contains r.book_id) = true := by
      have : r ∈ app.readingStates.filter (fun r =>
          (inlinedIdList valid).contains r.book_id) := hrB
      rw [List.mem_filter] at this
      exact this
    rcases hv : valid with _ | ⟨x, xs⟩
    · have hbid : r.book_id = -1 := by
        have := hrApp.2
        rw [hv] at this
        simpa [inlinedIdList] using this
      have : boundParamNotIn valid r.book_id = false := by
        rw [hv, hbid]
        simp [boundParamNotIn]
      simp [this] at hrc
    · rcases hxs : xs with _ | ⟨y, ys⟩
      · have hbid : r.book_id = x := by
          have := hrApp.2
          rw [hv, hxs] at this
          simpa [inlinedIdList] using this
        have : boundParamNotIn valid r.book_id = false := by
          rw [hv, hxs, hbid]
          simp [boundParamNotIn]
        simp [this] at hrc
      · rw [decide_eq_true_iff] at hrc
        refine hnone (List.any_eq_true.mpr ⟨r, hrApp.1, ?_⟩)
        rw [decide_eq_true_iff]
        refine ⟨hrc.1, ?_⟩
        rw [hv, hxs]
        simp [boundParamNotIn]
  have hst_keep : ∀ b ∈ B.statistics,
      (¬ B.readingStates.any (fun r => r.id = b.kobo_reading_state_id ∧
        boundParamNotIn valid r.book_id) : Bool) = true := by
    intro b hb
    have hb' : b ∈ app.statistics.filter (fun b =>
        ¬ app.readingStates.any (fun r => r.id = b.kobo_reading_state_id ∧
          boundParamNotIn valid r.book_id)) := hb
    rw [List.mem_filter] at hb'
    have hnone := hb'.2
    simp only [decide_not, Bool.not_eq_true', decide_eq_false_iff_not] at hnone
    simp only [decide_not, Bool.not_eq_true', decide_eq_false_iff_not]
    intro hany
    rcases List.any_eq_true.mp hany with ⟨r, hrB, hrc⟩
    have hrApp : r ∈ app.readingStates ∧
        ((inlinedIdList valid).contains r.book_id) = true := by
      have : r ∈ app.readingStates.filter (fun r =>
          (inlinedIdList valid).contains r.book_id) := hrB
      rw [List.mem_filter] at this
      exact this
    rcases hv : valid with _ | ⟨x, xs⟩
    · have hbid : r.book_id = -1 := by
        have := hrApp.2
        rw [hv] at this
        simpa [inlinedIdList] using this
      have : boundParamNotIn valid r.book_id = false := by
        rw [hv, hbid]
        simp [boundParamNotIn]
      simp [this] at hrc
    · rcases hxs : xs with _ | ⟨y, ys⟩
      · have hbid : r.book_id = x := by
          have := hrApp.2
          rw [hv, hxs] at this
          simpa [inlinedIdList] using this
        have : boundParamNotIn valid r.book_id = false := by
          rw [hv, hxs, hbid]
          simp [boundParamNotIn]
        simp [this] at hrc
      · rw [decide_eq_true_iff] at hrc
        refine hnone (List.any_eq_true.mpr ⟨r, hrApp.1, ?_⟩)
        rw [decide_eq_true_iff]
        refine ⟨hrc.1, ?_⟩
        rw [hv, hxs]
        simp [boundParamNotIn]
  have hm1 : B.shelves.map (fun s =>
      if s.created = none ∧ s.last_modified ≠ none then
        { s with created := s.last_modified } else s) = B.shelves := by
    rw [List.map_congr_left, List.map_id']
    intro s hs
    simp [(hsh_nonull s hs).1]
  have hm2 : B.shelves.map (fun s =>
      if s.last_modified = none ∧ s.created ≠ none then
        { s with last_modified := s.created } else s) = B.shelves := by
    rw [List.map_congr_left, List.map_id']
    intro s hs
    simp [(hsh_nonull s hs).2]
  have hm3 : B.shelves.map (fun s =>
      if s.created = none ∧ s.last_modified = none then
        { s with created := some now', last_modified := some now' } else s) =
      B.shelves := by
    rw [List.map_congr_left, List.map_id']
    intro s hs
    simp [(hsh_nonull s hs).1]
  have hL1 : B.links.map (fun l =>
      if l.date_added = none then { l with date_added := some now' } else l) =
      B.links := by
    rw [List.map_congr_left, List.map_id']
    intro l hl
    simp [hlinks_nonull l hl]
  have hL2 : B.links.filter (fun l =>
      (inlinedIdList valid).contains l.book_id) = B.links := by
    refine List.filter_eq_self.mpr ?_
    intro l hl
    have hl' : l ∈ (app.links.map (fun l =>
        if l.date_added = none then { l with date_added := some now } else l)).filter
          (fun l => (inlinedIdList valid).contains l.book_id) := hl
    rw [List.mem_filter] at hl'
    exact hl'.2
  have hD : B.downloads.filter (fun d =>
      (inlinedIdList valid).contains d.book_id) = B.downloads := by
    refine List.filter_eq_self.mpr ?_
    intro d hd
    have hd' : d ∈ app.downloads.filter (fun d =>
        (inlinedIdList valid).contains d.book_id) := hd
    rw [List.mem_filter] at hd'
    exact hd'.2
  have hAr : B.archived.filter (fun a =>
      (inlinedIdList valid).contains a.book_id) = B.archived := by
    refine List.filter_eq_self.mpr ?_
    intro a ha
    have ha' : a ∈ app.archived.filter (fun a =>
        (inlinedIdList valid).contains a.book_id) := ha
    rw [List.mem_filter] at ha'
    exact ha'.2
  have hR : B.readingStates.filter (fun r =>
      (inlinedIdList valid).contains r.book_id) = B.readingStates := by
    refine List.filter_eq_self.mpr ?_
    intro r hr
    have hr' : r ∈ app.readingStates.filter (fun r =>
        (inlinedIdList valid).contains r.book_id) := hr
    rw [List.mem_filter] at hr'
    exact hr'.2
  have hS : B.synced.filter (fun sb =>
      (inlinedIdList valid).contains sb.book_id) = B.synced := by
    refine List.filter_eq_self.mpr ?_
    intro sb hsb
    have hsb' : sb ∈ app.synced.filter (fun sb =>
        (inlinedIdList valid).contains sb.book_id) := hsb
    rw [List.mem_filter] at hsb'
    exact hsb'.2
  have hBM : B.bookmarks.filter (fun b =>
      ¬ B.readingStates.any (fun r => r.id = b.kobo_reading_state_id ∧
        boundParamNotIn valid r.book_id)) = B.bookmarks :=
    List.filter_eq_self.mpr hbm_keep
  have hST : B.statistics.filter (fun b =>
      ¬ B.readingStates.any (fun r => r.id = b.kobo_reading_state_id ∧
        boundParamNotIn valid r.book_id)) = B.statistics :=
    List.filter_eq_self.mpr hst_keep
  have hSH4 : B.shelves.filter (fun s =>
      B.links.any (fun l => l.shelf = s.id)) = B.shelves :=
    List.filter_eq_self.mpr hsh_haslink
  show cleanupAppdb B valid now' = B
  calc cleanupAppdb B valid now' = { B with
      shelves := ((((B.shelves.map (fun s =>
          if s.created = none ∧ s.last_modified ≠ none then
            { s with created := s.last_modified } else s)).map (fun s =>
          if s.last_modified = none ∧ s.created ≠ none then
            { s with last_modified := s.created } else s)).map (fun s =>
          if s.created = none ∧ s.last_modified = none then
            { s with created := some now', last_modified := some now' } else s)).filter
        (fun s => ((B.links.map (fun l =>
            if l.date_added = none then { l with date_added := some now' } else l)).filter
          (fun l => (inlinedIdList valid).contains l.book_id)).any
            (fun l => l.shelf = s.id)))
      links := (B.links.map (fun l =>
          if l.date_added = none then { l with date_added := some now' } else l)).filter
        (fun l => (inlinedIdList valid).contains l.book_id)
      synced := B.synced.filter (fun sb => (inlinedIdList valid).contains sb.book_id)
      readingStates := B.readingStates.filter (fun r =>
        (inlinedIdList valid).contains r.book_id)
      bookmarks := B.bookmarks.filter (fun b =>
        ¬ B.readingStates.any (fun r => r.id = b.kobo_reading_state_id ∧
          boundParamNotIn valid r.book_id))
      statistics := B.statistics.filter (fun b =>
        ¬ B.readingStates.any (fun r => r.id = b.kobo_reading_state_id ∧
          boundParamNotIn valid r.book_id))
      downloads := B.downloads.filter (fun d =>
        (inlinedIdList valid).contains d.book_id)
      archived := B.archived.filter (fun a =>
        (inlinedIdList valid).contains a.book_id) } := rfl
    _ = B := by
      rw [hm1, hm2, hm3, hL1, hL2, hD, hAr, hR, hS, hBM, hST, hSH4]

/-- C8 (amended): the orphan/NULL-repair sweep `cleanup_databases` is
idempotent — a second run, even at a different clock instant, changes
neither store; the sync-repair pass `fix_kobo_sync_issues` is however not
fix-free on a second run (see the counterexample): it unconditionally
resets membership date-added timestamps and shelf last-modified timestamps
for sync-enabled collections on every run. -/
theorem c8_cleanup_idempotent (cal : CalDB) (app : Option AppDB)
    (paths : List String) (now now' : String) :
    cleanupDatabases (cleanupDatabases cal app paths now).1
      (cleanupDatabases cal app paths now).2 paths now' =
    cleanupDatabases cal app paths now := by
  unfold cleanupDatabases
  rw [cleanupMetadata_idem]
  cases app with
  | none => rfl
  | some a =>
      simp only [Option.map_some']
      rw [cleanupAppdb_idem]
